import Mathlib

/-! The mapping table of `system/lib/libc/emscripten_mmap.c` and the class
`emscripten::ProxyingQueue` of `system/lib/pthread/proxying.h`.

A shallow embedding of `find_mapping`, `__syscall_munmap`, `__syscall_msync` and
`__syscall_mmap2`, and of the special member functions of `ProxyingQueue`, and theorems
about them.

Conventions of the embedding.

* The target is wasm32: `int`, `long` and pointers are 32 bits wide.  A value of any of
  these types is represented by the integer that the same 32 bits denote as a `long`
  (so a pointer is represented by `(long)p`, and `NULL` by `0`).  Arithmetic that can leave
  the range is wrapped explicitly (`wrapLong`, `toSizeT`).
* The global `mappings` (a singly linked list threaded through `next`) is a `List map`,
  head first.  A pointer into the list is the position of the node.
* The allocator and the JS library are outside the file; what they answer during one call
  is an `Env`.  Every call returns, with its result and the new list, the sequence of
  `LOCK`/`UNLOCK`, allocator and JS calls it made, in order.
* Constants that come from headers (`WASM_PAGE_SIZE`, `SYSCALL_MMAP2_UNIT`, `MAP_FIXED`,
  `MAP_ANONYMOUS`, `EINVAL`, `ENOMEM`, `sizeof(struct map)`) are the fields of `Consts`.
-/

namespace EmscriptenMmap

/-! ## Machine integers -/

/-- Width in bits of `int`, `long`, `size_t` and of pointers (wasm32). -/
def LONG_BITS : Nat := 32

/-- The `long` denoted by the low `LONG_BITS` bits of `x` (two's complement):
`(x + 2^31) mod 2^32 - 2^31`.  It is written by cases on the sign of `x`, so that it is
computed for numerals and left alone for a variable. -/
def wrapLong : Int → Int
  | Int.ofNat n => (Int.ofNat n + 2 ^ (LONG_BITS - 1)) % 2 ^ LONG_BITS - 2 ^ (LONG_BITS - 1)
  | Int.negSucc n =>
    (Int.negSucc n + 2 ^ (LONG_BITS - 1)) % 2 ^ LONG_BITS - 2 ^ (LONG_BITS - 1)

/-- Conversion to `size_t`, the unsigned value of the low `LONG_BITS` bits of `x`:
`x mod 2^32`, again by cases on the sign of `x`. -/
def toSizeT : Int → Int
  | Int.ofNat n => Int.ofNat n % 2 ^ LONG_BITS
  | Int.negSucc n => Int.negSucc n % 2 ^ LONG_BITS

/-- The bits that two `long`s have in common: the bitwise and of their unsigned values,
read as a `long`. -/
def commonBits (a b : Int) : Int :=
  wrapLong (Int.ofNat (Nat.land (toSizeT a).toNat (toSizeT b).toNat))

/-- The C expression `a & b` on two `long`s: `commonBits a b`, by cases on the signs. -/
def bitand : Int → Int → Int
  | Int.ofNat m, Int.ofNat n => commonBits (Int.ofNat m) (Int.ofNat n)
  | Int.ofNat m, Int.negSucc n => commonBits (Int.ofNat m) (Int.negSucc n)
  | Int.negSucc m, Int.ofNat n => commonBits (Int.negSucc m) (Int.ofNat n)
  | Int.negSucc m, Int.negSucc n => commonBits (Int.negSucc m) (Int.negSucc n)

/-! ## Data -/

/-- Constants taken from headers that are not part of the file. -/
structure Consts where
  WASM_PAGE_SIZE : Int
  SYSCALL_MMAP2_UNIT : Int
  MAP_FIXED : Int
  MAP_ANONYMOUS : Int
  EINVAL : Int
  ENOMEM : Int
  sizeof_map : Int

/-- The record `struct map`.  `self` is the address of the record itself (what a
`struct map*` to it holds); the field `next` is the tail of the list the record sits in. -/
structure map where
  self : Int
  addr : Int
  length : Int
  allocated : Int
  fd : Int
  flags : Int
  offset : Int
  prot : Int
  deriving DecidableEq, Repr

/-- One observable action of a call: taking or releasing `lock`, a call to the allocator,
`memset`, or a call to one of the three JS library functions, with the arguments passed. -/
inductive Event where
  | LOCK
  | UNLOCK
  | emscripten_builtin_memalign (alignment size : Int)
  | emscripten_builtin_malloc (size : Int)
  | emscripten_builtin_free (ptr : Int)
  | memset (ptr c n : Int)
  | _mmap_js (addr length prot flags fd offset new_map : Int)
  | _munmap_js (addr length prot flags fd offset : Int)
  | _msync_js (addr length flags fd : Int)
  deriving DecidableEq, Repr

/-- What the allocator and the JS library answer, and what freed memory holds.  `_mmap_js`
gets, as its last argument, the record whose `allocated` field it is handed a pointer to,
and answers its return value together with the value that field holds when it returns.
`flags_after_free p v` is what a read of the field `flags` of the record at `p` yields once
the block in which that record lies has been handed to `emscripten_builtin_free`, `v` being
the value the field held before: the allocator, or another thread that was given the block,
may have written there. -/
structure Env where
  emscripten_builtin_memalign : Int → Int → Int
  emscripten_builtin_malloc : Int → Int
  _mmap_js : Int → Int → Int → Int → Int → Int → Int → Int × Int
  _munmap_js : Int → Int → Int → Int → Int → Int → Int
  _msync_js : Int → Int → Int → Int → Int
  flags_after_free : Int → Int → Int

/-- Result of one call: the value returned, `mappings` afterwards, and the actions made. -/
structure Outcome where
  ret : Int
  mappings : List map
  trace : List Event
  deriving DecidableEq, Repr

/-! ## The functions -/

/-- The loop of `find_mapping`, started at the node at position `i` with the nodes from
there on being `l`; `prev` is the current content of `*prev`.  Answers the node found (its
position and the record) or `none` for `NULL`, and the final content of `*prev`. -/
def find_mapping_loop (addr : Int) :
    List map → Nat → Option Nat → Option (Nat × map) × Option Nat
  | [], _, prev => (none, prev)
  | m :: rest, i, prev =>
    if m.addr = addr then (some (i, m), prev)
    else find_mapping_loop addr rest (i + 1) (some i)

/-- The function `find_mapping(addr, &prev)`, the caller's variable `prev` holding `prev`
at the call (lines 41-53).  A caller that passes `NULL` for the second parameter uses the
first component only. -/
def find_mapping (mappings : List map) (addr : Int) (prev : Option Nat) :
    Option (Nat × map) × Option Nat :=
  find_mapping_loop addr mappings 0 prev

/-- Lines 71-75: `prev->next = map->next` when `prev` is not `NULL`, otherwise
`mappings = map->next`, for `map` the node at position `i`. -/
def unlink (mappings : List map) (i : Nat) (prev : Option Nat) : List map :=
  match prev with
  | some p => mappings.take (p + 1) ++ mappings.drop (i + 1)
  | none => mappings.drop (i + 1)

/-- The value that the read of `map->flags` at line 90 yields.  When `map->allocated` is
set, line 87 has handed the block at `map->addr` to `emscripten_builtin_free`; the record of
an anonymous mapping lies in that block (line 130 puts it `len` bytes after its start), so
the read is then of freed memory and yields what the environment left there.  A file-backed
record is a block of its own (line 135), not freed before line 91, and still holds its
flags. -/
def flags_at_line_90 (c : Consts) (env : Env) (m : map) : Int :=
  if m.allocated ≠ 0 ∧ bitand m.flags c.MAP_ANONYMOUS ≠ 0 then
    env.flags_after_free m.self m.flags
  else m.flags

/-- Lines 78-95 of `__syscall_munmap`, what happens after the node `m` was unlinked: the
call of `_munmap_js` for a record that is not anonymous, with the early return of its
answer when that is not 0, then `emscripten_builtin_free(map->addr)` when `map->allocated`
is set, then `emscripten_builtin_free(map)` when the flags read at line 90 are without
`MAP_ANONYMOUS`. -/
def munmap_release (c : Consts) (env : Env) (m : map) (addr length : Int) :
    Int × List Event :=
  let js : List Event :=
    if bitand m.flags c.MAP_ANONYMOUS = 0 then
      [Event._munmap_js addr length m.prot m.flags m.fd m.offset]
    else []
  if bitand m.flags c.MAP_ANONYMOUS = 0 ∧
      env._munmap_js addr length m.prot m.flags m.fd m.offset ≠ 0 then
    (env._munmap_js addr length m.prot m.flags m.fd m.offset, js)
  else
    let free_addr : List Event :=
      if m.allocated ≠ 0 then [Event.emscripten_builtin_free m.addr] else []
    let free_map : List Event :=
      if bitand (flags_at_line_90 c env m) c.MAP_ANONYMOUS = 0 then
        [Event.emscripten_builtin_free m.self]
      else []
    (0, js ++ free_addr ++ free_map)

/-- The function `__syscall_munmap(addr, length)` (lines 55-96): the lookup under the lock,
the three ways to `-EINVAL` (no record, length zero, another length than the stored one),
the unlinking, and after the lock is released what `munmap_release` does. -/
def __syscall_munmap (c : Consts) (env : Env) (mappings : List map)
    (addr length : Int) : Outcome :=
  match find_mapping mappings addr none with
  | (none, _) => ⟨-c.EINVAL, mappings, [Event.LOCK, Event.UNLOCK]⟩
  | (some (i, m), prev) =>
    if length = 0 then ⟨-c.EINVAL, mappings, [Event.LOCK, Event.UNLOCK]⟩
    else if m.length ≠ length then ⟨-c.EINVAL, mappings, [Event.LOCK, Event.UNLOCK]⟩
    else
      let r := munmap_release c env m addr length
      ⟨r.1, unlink mappings i prev, [Event.LOCK, Event.UNLOCK] ++ r.2⟩

/-- The function `__syscall_msync(addr, len, flags)` (lines 98-109).  The argument `flags`
is not used by the code: `_msync_js` gets the flags stored in the record. -/
def __syscall_msync (c : Consts) (env : Env) (mappings : List map)
    (addr len _flags : Int) : Outcome :=
  match (find_mapping mappings addr none).1 with
  | none => ⟨-c.EINVAL, mappings, [Event.LOCK, Event.UNLOCK]⟩
  | some (_, m) =>
    if bitand m.flags c.MAP_ANONYMOUS ≠ 0 then ⟨0, mappings, [Event.LOCK, Event.UNLOCK]⟩
    else
      ⟨env._msync_js addr len m.flags m.fd, mappings,
        [Event.LOCK, Event.UNLOCK, Event._msync_js addr len m.flags m.fd]⟩

/-- The function `__syscall_mmap2(addr, len, prot, flags, fd, off)` (lines 111-156).  The
answer is `none` when the call stores through a null `new_map` (line 141, reached when
`emscripten_builtin_malloc` answered `NULL` and `_mmap_js` a value that is not negative),
which C leaves undefined.  In the file-backed branch `new_map` is the pointer that
`emscripten_builtin_malloc` answered, and `js` what `_mmap_js` answered. -/
def __syscall_mmap2 (c : Consts) (env : Env) (mappings : List map)
    (addr len prot flags fd off : Int) : Option Outcome :=
  if bitand flags c.MAP_FIXED ≠ 0 ∧ Int.tmod addr c.WASM_PAGE_SIZE ≠ 0 then
    some ⟨-c.EINVAL, mappings, []⟩
  else
    let off := wrapLong (off * c.SYSCALL_MMAP2_UNIT)
    if bitand flags c.MAP_ANONYMOUS ≠ 0 then
      let size := toSizeT (len + c.sizeof_map)
      let ptr := env.emscripten_builtin_memalign c.WASM_PAGE_SIZE size
      if ptr = 0 then
        some ⟨-c.ENOMEM, mappings, [Event.emscripten_builtin_memalign c.WASM_PAGE_SIZE size]⟩
      else
        let new_map : map :=
          { self := wrapLong (ptr + len), addr := ptr, fd := -1, allocated := 1,
            length := len, flags := flags, offset := off, prot := prot }
        some ⟨new_map.addr, new_map :: mappings,
          [Event.emscripten_builtin_memalign c.WASM_PAGE_SIZE size,
           Event.memset ptr 0 (toSizeT len), Event.LOCK, Event.UNLOCK]⟩
    else
      let new_map := env.emscripten_builtin_malloc c.sizeof_map
      let js := env._mmap_js addr len prot flags fd off new_map
      let rtn := js.1
      if rtn < 0 then
        some ⟨rtn, mappings,
          [Event.emscripten_builtin_malloc c.sizeof_map,
           Event._mmap_js addr len prot flags fd off new_map,
           Event.emscripten_builtin_free new_map]⟩
      else if new_map = 0 then none
      else
        let r : map :=
          { self := new_map, allocated := js.2, addr := rtn, fd := fd,
            length := len, flags := flags, offset := off, prot := prot }
        some ⟨r.addr, r :: mappings,
          [Event.emscripten_builtin_malloc c.sizeof_map,
           Event._mmap_js addr len prot flags fd off new_map,
           Event.LOCK, Event.UNLOCK]⟩

/-! ## Sequences of calls -/

/-- One call of the three entry points, with what the environment answers during it. -/
inductive Call where
  | mmap2 (env : Env) (addr len prot flags fd off : Int)
  | munmap (env : Env) (addr length : Int)
  | msync (env : Env) (addr len flags : Int)

/-- Run one call on `mappings`. -/
def step (c : Consts) (mappings : List map) : Call → Option Outcome
  | Call.mmap2 env addr len prot flags fd off =>
    __syscall_mmap2 c env mappings addr len prot flags fd off
  | Call.munmap env addr length => some (__syscall_munmap c env mappings addr length)
  | Call.msync env addr len flags => some (__syscall_msync c env mappings addr len flags)

/-- Run a sequence of calls, each on the list the one before left. -/
def run (c : Consts) : List map → List Call → Option (List map)
  | mappings, [] => some mappings
  | mappings, call :: rest =>
    match step c mappings call with
    | none => none
    | some o => run c o.mappings rest

/-- The call pushes no record whose address a record of `mappings` already has. -/
def freshCall (c : Consts) (mappings : List map) (call : Call) : Prop :=
  ∀ o r, step c mappings call = some o → o.mappings = r :: mappings →
    ∀ m ∈ mappings, m.addr ≠ r.addr

/-- Every call of the sequence, run from `mappings`, is a `freshCall`. -/
def freshRun (c : Consts) : List map → List Call → Prop
  | _, [] => True
  | mappings, call :: rest =>
    freshCall c mappings call ∧
      ∀ o, step c mappings call = some o → freshRun c o.mappings rest

/-! ## Concrete data used in examples -/

/-- The values of the constants on Emscripten (wasm32). -/
def wasm32 : Consts :=
  { WASM_PAGE_SIZE := 65536, SYSCALL_MMAP2_UNIT := 4096, MAP_FIXED := 0x10,
    MAP_ANONYMOUS := 0x20, EINVAL := 28, ENOMEM := 48, sizeof_map := 40 }

/-- An environment: the allocator answers `p` to `memalign` and `q` to `malloc`, `_mmap_js`
answers `(a, owned)`, `_munmap_js` answers `u` and `_msync_js` answers `s`; a freed block
is left as it was. -/
def envOf (p q a owned u s : Int) : Env :=
  { emscripten_builtin_memalign := fun _ _ => p
    emscripten_builtin_malloc := fun _ => q
    _mmap_js := fun _ _ _ _ _ _ _ => (a, owned)
    _munmap_js := fun _ _ _ _ _ _ => u
    _msync_js := fun _ _ _ _ => s
    flags_after_free := fun _ v => v }

/-- An environment in which a freed block is written over: where the flags of a record lay,
`v` is read afterwards.  The other answers are those of `envOf 0 0 0 0 0 0`. -/
def envOverwritten (v : Int) : Env :=
  { emscripten_builtin_memalign := fun _ _ => 0
    emscripten_builtin_malloc := fun _ => 0
    _mmap_js := fun _ _ _ _ _ _ _ => (0, 0)
    _munmap_js := fun _ _ _ _ _ _ => 0
    _msync_js := fun _ _ _ _ => 0
    flags_after_free := fun _ _ => v }

/-- The record of an anonymous mapping of `len` bytes at 65536 (read/write, private). -/
def anonAt65536 (len : Int) : map :=
  { self := 65536 + len, addr := 65536, length := len, allocated := 1, fd := -1,
    flags := 0x22, offset := 0, prot := 3 }

/-- The record of a shared mapping of `len` bytes of file 3 that the JS library placed at
65536 (memory it did not allocate), the record itself being at `self`. -/
def fileAt65536 (self len : Int) : map :=
  { self := self, addr := 65536, length := len, allocated := 0, fd := 3,
    flags := 1, offset := 0, prot := 1 }

/-- The private mapping of 8192 bytes of file 3 that the JS library allocated at 131072,
its record being at 196608. -/
def fileAt131072 : map :=
  { self := 196608, addr := 131072, length := 8192, allocated := 1, fd := 3,
    flags := 2, offset := 0, prot := 1 }

/-! ## Reading a trace -/

/-- Whether the event is a call of the allocator (`emscripten_builtin_memalign`,
`emscripten_builtin_malloc`, `emscripten_builtin_free`) or of the JS library (`_mmap_js`,
`_munmap_js`, `_msync_js`). -/
def Event.isCall : Event → Bool
  | Event.emscripten_builtin_memalign _ _ => true
  | Event.emscripten_builtin_malloc _ => true
  | Event.emscripten_builtin_free _ => true
  | Event._mmap_js _ _ _ _ _ _ _ => true
  | Event._munmap_js _ _ _ _ _ _ => true
  | Event._msync_js _ _ _ _ => true
  | Event.LOCK => false
  | Event.UNLOCK => false
  | Event.memset _ _ _ => false

/-- Reading a trace from a moment at which the lock is held (`held = true`) or not: the
lock is taken only when it is not held and released only when it is held, no call of the
allocator or of the JS library is made while it is held, and at the end of the trace it is
not held. -/
def lockDiscipline : Bool → List Event → Bool
  | held, [] => !held
  | held, Event.LOCK :: t => !held && lockDiscipline true t
  | held, Event.UNLOCK :: t => held && lockDiscipline false t
  | held, e :: t => !(held && e.isCall) && lockDiscipline held t

/-- The pointers handed to `emscripten_builtin_free` in a trace, in order. -/
def freed : List Event → List Int
  | [] => []
  | Event.emscripten_builtin_free p :: t => p :: freed t
  | _ :: t => freed t

/-! ## The class `emscripten::ProxyingQueue` of `system/lib/pthread/proxying.h`

An object of the class has one member, `queue`, a handle (`em_proxying_queue*`, the null
pointer being 0).  Objects are named by numbers.  The functions `em_proxying_queue_create`
and `em_proxying_queue_destroy` are only declared in the header: what the first returns is
an argument of the constructor below, and the calls of both are recorded. -/

/-- A call of `em_proxying_queue_create`, with the handle it returned, or of
`em_proxying_queue_destroy`, with the handle it was passed. -/
inductive QEvent where
  | em_proxying_queue_create (ret : Int)
  | em_proxying_queue_destroy (q : Int)
  deriving DecidableEq, Repr

/-- The objects alive at one moment and the calls made so far: `queue x` is the member
`queue` of the object `x`, or `none` when no object `x` is alive. -/
structure QState where
  queue : Nat → Option Int
  trace : List QEvent

/-- The assignment `x.queue = v` (or, with `v = none`, the end of the life of `x`). -/
def setQueue (queue : Nat → Option Int) (x : Nat) (v : Option Int) : Nat → Option Int :=
  fun y => if y = x then v else queue y

/-- Lines 115-117 and 129-131: `if (queue) { em_proxying_queue_destroy(queue); }` for
`queue = q`. -/
def destroyIfSet (trace : List QEvent) (q : Int) : List QEvent :=
  if q ≠ 0 then trace ++ [QEvent.em_proxying_queue_destroy q] else trace

/-- The default constructor `ProxyingQueue()` (line 112) for a new object `this`, with the
member initializer of line 91, `queue = em_proxying_queue_create()`, the call returning
`created`. -/
def ProxyingQueue.construct (s : QState) (this : Nat) (created : Int) : Option QState :=
  match s.queue this with
  | some _ => none
  | none =>
    some { queue := setQueue s.queue this (some created)
           trace := s.trace ++ [QEvent.em_proxying_queue_create created] }

/-- The move assignment `operator=(ProxyingQueue&& other)` (lines 114-121) on the objects
`this` and `other`, both alive, which may be the same object. -/
def ProxyingQueue.move_assign (s : QState) (this other : Nat) : Option QState :=
  match s.queue this, s.queue other with
  | some q, some _ =>
    let trace := destroyIfSet s.trace q
    let queue1 := setQueue s.queue this (s.queue other)
    let queue2 := setQueue queue1 other (some 0)
    some { queue := queue2, trace := trace }
  | _, _ => none

/-- The move constructor `ProxyingQueue(ProxyingQueue&& other)` (lines 124-126) for a new
object `this` from an object `other` that is alive: `queue(nullptr)`, then
`*this = std::move(other)`. -/
def ProxyingQueue.move_construct (s : QState) (this other : Nat) : Option QState :=
  match s.queue this, s.queue other with
  | none, some _ =>
    ProxyingQueue.move_assign { queue := setQueue s.queue this (some 0), trace := s.trace }
      this other
  | _, _ => none

/-- The destructor `~ProxyingQueue()` (lines 128-132) of the object `this`, which is alive
before and not after. -/
def ProxyingQueue.destruct (s : QState) (this : Nat) : Option QState :=
  match s.queue this with
  | some q => some { queue := setQueue s.queue this none, trace := destroyIfSet s.trace q }
  | none => none

/-- One use of a special member function of the class. -/
inductive QOp where
  | construct (this : Nat) (created : Int)
  | move_construct (this other : Nat)
  | move_assign (this other : Nat)
  | destruct (this : Nat)

/-- Run one use; `none` when it names an object that is not alive, or constructs one that
is. -/
def QOp.run (s : QState) : QOp → Option QState
  | QOp.construct this created => ProxyingQueue.construct s this created
  | QOp.move_construct this other => ProxyingQueue.move_construct s this other
  | QOp.move_assign this other => ProxyingQueue.move_assign s this other
  | QOp.destruct this => ProxyingQueue.destruct s this

/-- Run a sequence of uses, one after the other. -/
def runOps : QState → List QOp → Option QState
  | s, [] => some s
  | s, op :: rest =>
    match op.run s with
    | none => none
    | some s1 => runOps s1 rest

/-- The moment at which no object is alive and no call has been made. -/
def QState.start : QState := { queue := fun _ => none, trace := [] }

/-- The number of objects of the list `live` that hold the handle `h`. -/
def holders (queue : Nat → Option Int) (h : Int) : List Nat → Nat
  | [] => 0
  | x :: rest => (if queue x = some h then 1 else 0) + holders queue h rest

/-- What holds at every moment of a run, `live` being a list of different objects among
which all the objects alive are: for every handle other than the null pointer, the number
of objects that hold it plus the number of times it was passed to
`em_proxying_queue_destroy` is the number of times `em_proxying_queue_create` returned it;
and the null pointer was never passed to `em_proxying_queue_destroy`. -/
def QBalance (live : List Nat) (s : QState) : Prop :=
  live.Nodup ∧ (∀ x, s.queue x ≠ none → x ∈ live) ∧
  (∀ h, h ≠ 0 →
    holders s.queue h live + s.trace.count (QEvent.em_proxying_queue_destroy h) =
      s.trace.count (QEvent.em_proxying_queue_create h)) ∧
  s.trace.count (QEvent.em_proxying_queue_destroy 0) = 0

/-- Two objects alive, 0 holding the handle 7 and 1 holding the handle 9, after the two
calls of `em_proxying_queue_create` that returned them. -/
def twoQueues : QState :=
  { queue := fun x => if x = 0 then some 7 else if x = 1 then some 9 else none
    trace := [QEvent.em_proxying_queue_create 7, QEvent.em_proxying_queue_create 9] }

/-! ## Lemmas on the machine integers -/

theorem wrapLong_eq (x : Int) :
    wrapLong x = (x + 2 ^ (LONG_BITS - 1)) % 2 ^ LONG_BITS - 2 ^ (LONG_BITS - 1) := by
  cases x <;> rfl

theorem toSizeT_eq (x : Int) : toSizeT x = x % 2 ^ LONG_BITS := by
  cases x <;> rfl

theorem bitand_eq (a b : Int) : bitand a b = commonBits a b := by
  cases a <;> cases b <;> rfl

/-! ## Lemmas on `find_mapping` and `unlink` -/

theorem find_mapping_loop_none (addr : Int) (l : List map) (i : Nat) (prev : Option Nat)
    (h : ∀ r ∈ l, r.addr ≠ addr) :
    (find_mapping_loop addr l i prev).1 = none := by
  induction l generalizing i prev with
  | nil => rfl
  | cons m rest ih =>
    have hm : m.addr ≠ addr := h m (List.mem_cons_self _ _)
    have hrest : ∀ r ∈ rest, r.addr ≠ addr := fun r hr => h r (List.mem_cons_of_mem _ hr)
    simp only [find_mapping_loop, if_neg hm]
    exact ih (i + 1) (some i) hrest

theorem find_mapping_loop_split (addr : Int) (pre : List map) (m : map) (post : List map)
    (i : Nat) (prev : Option Nat)
    (hpre : ∀ r ∈ pre, r.addr ≠ addr) (hm : m.addr = addr) :
    find_mapping_loop addr (pre ++ m :: post) i prev =
      (some (i + pre.length, m),
        if pre.length = 0 then prev else some (i + pre.length - 1)) := by
  induction pre generalizing i prev with
  | nil => simp [find_mapping_loop, hm]
  | cons a rest ih =>
    have ha : a.addr ≠ addr := hpre a (List.mem_cons_self _ _)
    have hrest : ∀ r ∈ rest, r.addr ≠ addr := fun r hr => hpre r (List.mem_cons_of_mem _ hr)
    have hstep : find_mapping_loop addr (a :: rest ++ m :: post) i prev =
        find_mapping_loop addr (rest ++ m :: post) (i + 1) (some i) := by
      show find_mapping_loop addr (a :: (rest ++ m :: post)) i prev = _
      simp only [find_mapping_loop, if_neg ha]
    rw [hstep, ih (i + 1) (some i) hrest]
    have e1 : i + 1 + rest.length = i + (a :: rest).length := by
      simp only [List.length_cons]; omega
    have e2 : (a :: rest).length ≠ 0 := by simp
    rw [if_neg e2, e1]
    by_cases h0 : rest.length = 0
    · simp [h0]
    · rw [if_neg h0]

theorem find_mapping_split (addr : Int) (pre : List map) (m : map) (post : List map)
    (hpre : ∀ r ∈ pre, r.addr ≠ addr) (hm : m.addr = addr) :
    find_mapping (pre ++ m :: post) addr none =
      (some (pre.length, m), if pre.length = 0 then none else some (pre.length - 1)) := by
  unfold find_mapping
  rw [find_mapping_loop_split addr pre m post 0 none hpre hm]
  simp

theorem unlink_split (pre : List map) (m : map) (post : List map) :
    unlink (pre ++ m :: post) pre.length
      (if pre.length = 0 then none else some (pre.length - 1)) = pre ++ post := by
  by_cases h0 : pre.length = 0
  · have hnil : pre = [] := List.length_eq_zero.mp h0
    subst hnil
    simp [unlink]
  · rw [if_neg h0]
    have e : pre.length - 1 + 1 = pre.length := by omega
    simp [unlink, e]

/-- Every list either has no record with address `addr` or splits at the first one. -/
theorem exists_first (addr : Int) (l : List map) :
    (∀ r ∈ l, r.addr ≠ addr) ∨
      ∃ pre m post, l = pre ++ m :: post ∧ (∀ r ∈ pre, r.addr ≠ addr) ∧ m.addr = addr := by
  induction l with
  | nil => left; simp
  | cons a rest ih =>
    by_cases ha : a.addr = addr
    · right; exact ⟨[], a, rest, rfl, by simp, ha⟩
    · rcases ih with h | ⟨pre, m, post, e, hpre, hm⟩
      · left
        intro r hr
        rcases List.mem_cons.mp hr with rfl | hr
        · exact ha
        · exact h r hr
      · right
        refine ⟨a :: pre, m, post, by simp [e], ?_, hm⟩
        intro r hr
        rcases List.mem_cons.mp hr with rfl | hr
        · exact ha
        · exact hpre r hr

/-- The call `__syscall_munmap(addr, length)` when no record has address `addr`. -/
theorem munmap_absent (c : Consts) (env : Env) (T : List map) (addr length : Int)
    (h : ∀ r ∈ T, r.addr ≠ addr) :
    __syscall_munmap c env T addr length = ⟨-c.EINVAL, T, [Event.LOCK, Event.UNLOCK]⟩ := by
  have h1 := find_mapping_loop_none addr T 0 none h
  unfold __syscall_munmap find_mapping
  generalize find_mapping_loop addr T 0 none = q at h1
  obtain ⟨a, b⟩ := q
  simp only at h1
  subst h1
  rfl

/-- The call `__syscall_munmap(addr, length)` when the first record with address `addr`
is `m`. -/
theorem munmap_split (c : Consts) (env : Env) (pre : List map) (m : map) (post : List map)
    (addr length : Int) (hpre : ∀ r ∈ pre, r.addr ≠ addr) (hm : m.addr = addr) :
    __syscall_munmap c env (pre ++ m :: post) addr length =
      if length = 0 then ⟨-c.EINVAL, pre ++ m :: post, [Event.LOCK, Event.UNLOCK]⟩
      else if m.length ≠ length then
        ⟨-c.EINVAL, pre ++ m :: post, [Event.LOCK, Event.UNLOCK]⟩
      else
        ⟨(munmap_release c env m addr length).1, pre ++ post,
          [Event.LOCK, Event.UNLOCK] ++ (munmap_release c env m addr length).2⟩ := by
  unfold __syscall_munmap
  rw [find_mapping_split addr pre m post hpre hm]
  simp only [unlink_split]

/-- The call `__syscall_msync(addr, len, flags)` when the first record with address `addr`
is `m`. -/
theorem msync_split (c : Consts) (env : Env) (pre : List map) (m : map) (post : List map)
    (addr len flags : Int) (hpre : ∀ r ∈ pre, r.addr ≠ addr) (hm : m.addr = addr) :
    __syscall_msync c env (pre ++ m :: post) addr len flags =
      if bitand m.flags c.MAP_ANONYMOUS ≠ 0 then
        ⟨0, pre ++ m :: post, [Event.LOCK, Event.UNLOCK]⟩
      else
        ⟨env._msync_js addr len m.flags m.fd, pre ++ m :: post,
          [Event.LOCK, Event.UNLOCK, Event._msync_js addr len m.flags m.fd]⟩ := by
  unfold __syscall_msync
  rw [find_mapping_split addr pre m post hpre hm]

/-- A call of `__syscall_mmap2` that returns a value that is not negative went through
one of the two branches to the end, and its outcome is the one written here. -/
theorem mmap2_nonneg (c : Consts) (env : Env) (T : List map)
    (addr len prot flags fd off : Int) (o : Outcome)
    (hE : 0 < c.EINVAL) (hM : 0 < c.ENOMEM)
    (h : __syscall_mmap2 c env T addr len prot flags fd off = some o) (hok : 0 ≤ o.ret) :
    (bitand flags c.MAP_ANONYMOUS ≠ 0 ∧
      o = ⟨env.emscripten_builtin_memalign c.WASM_PAGE_SIZE (toSizeT (len + c.sizeof_map)),
            { self := wrapLong (env.emscripten_builtin_memalign c.WASM_PAGE_SIZE
                  (toSizeT (len + c.sizeof_map)) + len),
              addr := env.emscripten_builtin_memalign c.WASM_PAGE_SIZE
                  (toSizeT (len + c.sizeof_map)),
              length := len, allocated := 1, fd := -1, flags := flags,
              offset := wrapLong (off * c.SYSCALL_MMAP2_UNIT), prot := prot } :: T,
            [Event.emscripten_builtin_memalign c.WASM_PAGE_SIZE (toSizeT (len + c.sizeof_map)),
             Event.memset (env.emscripten_builtin_memalign c.WASM_PAGE_SIZE
                  (toSizeT (len + c.sizeof_map))) 0 (toSizeT len),
             Event.LOCK, Event.UNLOCK]⟩) ∨
    (bitand flags c.MAP_ANONYMOUS = 0 ∧
      o = ⟨(env._mmap_js addr len prot flags fd (wrapLong (off * c.SYSCALL_MMAP2_UNIT))
              (env.emscripten_builtin_malloc c.sizeof_map)).1,
            { self := env.emscripten_builtin_malloc c.sizeof_map,
              addr := (env._mmap_js addr len prot flags fd
                  (wrapLong (off * c.SYSCALL_MMAP2_UNIT))
                  (env.emscripten_builtin_malloc c.sizeof_map)).1,
              length := len,
              allocated := (env._mmap_js addr len prot flags fd
                  (wrapLong (off * c.SYSCALL_MMAP2_UNIT))
                  (env.emscripten_builtin_malloc c.sizeof_map)).2,
              fd := fd, flags := flags,
              offset := wrapLong (off * c.SYSCALL_MMAP2_UNIT), prot := prot } :: T,
            [Event.emscripten_builtin_malloc c.sizeof_map,
             Event._mmap_js addr len prot flags fd (wrapLong (off * c.SYSCALL_MMAP2_UNIT))
                (env.emscripten_builtin_malloc c.sizeof_map),
             Event.LOCK, Event.UNLOCK]⟩) := by
  unfold __syscall_mmap2 at h
  dsimp only at h
  split_ifs at h with h1 h2
  · injection h with h; subst h; simp only at hok; omega
  · injection h with h; subst h; simp only at hok; omega
  · injection h with h; subst h; left; exact ⟨h2, rfl⟩
  · injection h with h; subst h; simp only at hok; omega
  · injection h with h; subst h; right; exact ⟨not_not.mp h2, rfl⟩

/-- A call of `__syscall_mmap2` that returns a value that is not negative has pushed a
record, with these fields, and returned its `addr`. -/
theorem mmap2_nonneg_record (c : Consts) (env : Env) (T : List map)
    (addr len prot flags fd off : Int) (o : Outcome)
    (hE : 0 < c.EINVAL) (hM : 0 < c.ENOMEM)
    (h : __syscall_mmap2 c env T addr len prot flags fd off = some o) (hok : 0 ≤ o.ret) :
    ∃ r : map, o.mappings = r :: T ∧ o.ret = r.addr ∧
      r.length = len ∧ r.flags = flags ∧ r.prot = prot ∧
      r.offset = wrapLong (off * c.SYSCALL_MMAP2_UNIT) ∧
      (bitand flags c.MAP_ANONYMOUS ≠ 0 → r.allocated = 1 ∧ r.fd = -1) ∧
      (bitand flags c.MAP_ANONYMOUS = 0 →
        r.fd = fd ∧
        r.addr = (env._mmap_js addr len prot flags fd (wrapLong (off * c.SYSCALL_MMAP2_UNIT))
          (env.emscripten_builtin_malloc c.sizeof_map)).1 ∧
        r.allocated = (env._mmap_js addr len prot flags fd
          (wrapLong (off * c.SYSCALL_MMAP2_UNIT))
          (env.emscripten_builtin_malloc c.sizeof_map)).2) := by
  rcases mmap2_nonneg c env T addr len prot flags fd off o hE hM h hok with
    ⟨ha, ho⟩ | ⟨hf, ho⟩
  · rw [ho]
    exact ⟨_, rfl, rfl, rfl, rfl, rfl, rfl, fun _ => ⟨rfl, rfl⟩, fun h0 => absurd h0 ha⟩
  · rw [ho]
    exact ⟨_, rfl, rfl, rfl, rfl, rfl, rfl, fun h0 => absurd hf h0,
      fun _ => ⟨rfl, rfl, rfl⟩⟩

/-- The list after a call of `__syscall_mmap2` is the list before, or it with one record
pushed at the head. -/
theorem mmap2_mappings (c : Consts) (env : Env) (T : List map)
    (addr len prot flags fd off : Int) (o : Outcome)
    (h : __syscall_mmap2 c env T addr len prot flags fd off = some o) :
    o.mappings = T ∨ ∃ r, o.mappings = r :: T := by
  unfold __syscall_mmap2 at h
  dsimp only at h
  split_ifs at h <;> injection h with h <;> subst h
  · left; rfl
  · left; rfl
  · right; exact ⟨_, rfl⟩
  · left; rfl
  · right; exact ⟨_, rfl⟩

/-- The list after a call of `__syscall_munmap` is a sublist of the list before. -/
theorem munmap_mappings_sublist (c : Consts) (env : Env) (T : List map) (addr length : Int) :
    List.Sublist (__syscall_munmap c env T addr length).mappings T := by
  rcases exists_first addr T with h | ⟨pre, m, post, e, hpre, hm⟩
  · rw [munmap_absent c env T addr length h]
  · subst e
    rw [munmap_split c env pre m post addr length hpre hm]
    split_ifs
    · exact List.Sublist.refl _
    · exact List.Sublist.refl _
    · exact List.Sublist.append (List.Sublist.refl pre) (List.sublist_cons_self m post)

/-- A call of `__syscall_msync` leaves the list as it was. -/
theorem msync_mappings (c : Consts) (env : Env) (T : List map) (addr len flags : Int) :
    (__syscall_msync c env T addr len flags).mappings = T := by
  unfold __syscall_msync
  split
  · rfl
  · split_ifs <;> rfl

/-- The call `__syscall_munmap` for the address and the length of the record at the
head. -/
theorem munmap_head (c : Consts) (env : Env) (r : map) (T : List map) (length : Int)
    (h0 : length ≠ 0) (hl : r.length = length) :
    __syscall_munmap c env (r :: T) r.addr length =
      ⟨(munmap_release c env r r.addr length).1, T,
        [Event.LOCK, Event.UNLOCK] ++ (munmap_release c env r r.addr length).2⟩ := by
  have hs := munmap_split c env [] r T r.addr length (by simp) rfl
  simp only [List.nil_append] at hs
  rw [hs, if_neg h0, if_neg (not_not.mpr hl)]

/-- The value `__syscall_munmap` returns once the record is unlinked: the answer of
`_munmap_js` when the record is not anonymous and that answer is not 0, otherwise 0. -/
theorem munmap_release_fst (c : Consts) (env : Env) (m : map) (addr length : Int) :
    (munmap_release c env m addr length).1 =
      if bitand m.flags c.MAP_ANONYMOUS = 0 ∧
          env._munmap_js addr length m.prot m.flags m.fd m.offset ≠ 0 then
        env._munmap_js addr length m.prot m.flags m.fd m.offset
      else 0 := by
  unfold munmap_release
  dsimp only
  split_ifs <;> rfl

/-! ## C1: map, unmap, unmap again -/

/-- C1, as stated, fails at three inputs.
(1) An anonymous mapping of length 0 succeeds and returns 65536, and
`__syscall_munmap(65536, 0)` then returns `-EINVAL` (-28), not 0.
(2) A file-backed mapping of 4096 bytes succeeds and returns 65536; when `_munmap_js`
answers -5, `__syscall_munmap(65536, 4096)` returns -5, not 0.
(3) With a record for 65536 of length 4096 in the list already, a second file-backed mapping
for which `_mmap_js` answers 65536 again succeeds; the first `__syscall_munmap(65536, 4096)`
returns 0 and leaves a record for 65536 in the list, and the second one returns 0 as well,
not `-EINVAL`. -/
theorem C1_counterexample :
    (__syscall_mmap2 wasm32 (envOf 65536 0 0 0 0 0) [] 0 0 3 0x22 (-1) 0 =
        some ⟨65536, [anonAt65536 0],
          [Event.emscripten_builtin_memalign 65536 40, Event.memset 65536 0 0,
           Event.LOCK, Event.UNLOCK]⟩ ∧
      __syscall_munmap wasm32 (envOf 0 0 0 0 0 0) [anonAt65536 0] 65536 0 =
        ⟨-28, [anonAt65536 0], [Event.LOCK, Event.UNLOCK]⟩) ∧
    (__syscall_mmap2 wasm32 (envOf 0 131072 65536 0 0 0) [] 0 4096 1 1 3 0 =
        some ⟨65536, [fileAt65536 131072 4096],
          [Event.emscripten_builtin_malloc 40, Event._mmap_js 0 4096 1 1 3 0 131072,
           Event.LOCK, Event.UNLOCK]⟩ ∧
      __syscall_munmap wasm32 (envOf 0 0 0 0 (-5) 0) [fileAt65536 131072 4096] 65536 4096 =
        ⟨-5, [], [Event.LOCK, Event.UNLOCK, Event._munmap_js 65536 4096 1 1 3 0]⟩) ∧
    (__syscall_mmap2 wasm32 (envOf 0 131112 65536 0 0 0) [fileAt65536 131072 4096]
          0 4096 1 1 3 0 =
        some ⟨65536, [fileAt65536 131112 4096, fileAt65536 131072 4096],
          [Event.emscripten_builtin_malloc 40, Event._mmap_js 0 4096 1 1 3 0 131112,
           Event.LOCK, Event.UNLOCK]⟩ ∧
      __syscall_munmap wasm32 (envOf 0 0 0 0 0 0)
          [fileAt65536 131112 4096, fileAt65536 131072 4096] 65536 4096 =
        ⟨0, [fileAt65536 131072 4096],
          [Event.LOCK, Event.UNLOCK, Event._munmap_js 65536 4096 1 1 3 0,
           Event.emscripten_builtin_free 131112]⟩ ∧
      __syscall_munmap wasm32 (envOf 0 0 0 0 0 0) [fileAt65536 131072 4096] 65536 4096 =
        ⟨0, [],
          [Event.LOCK, Event.UNLOCK, Event._munmap_js 65536 4096 1 1 3 0,
           Event.emscripten_builtin_free 131072]⟩) := by
  refine ⟨⟨?_, ?_⟩, ⟨?_, ?_⟩, ⟨?_, ?_, ?_⟩⟩ <;> decide

/-- C1, amended.  Let `__syscall_mmap2` on the list `T` succeed (return a value `A` that is
not negative) for a length `len` other than 0, and let `_munmap_js`, if the mapping is
file-backed, answer 0 when called for it.  Then `__syscall_munmap(A, len)` returns 0 and
leaves the list `T` again (the record pushed for `A` is removed); and when no record of `T`
has address `A`, a second `__syscall_munmap(A, len)` returns `-EINVAL` and changes
nothing. -/
theorem C1_map_unmap_unmap (c : Consts) (env1 env2 env3 : Env) (T : List map)
    (addr len prot flags fd off : Int) (o : Outcome)
    (hE : 0 < c.EINVAL) (hM : 0 < c.ENOMEM)
    (hmap : __syscall_mmap2 c env1 T addr len prot flags fd off = some o)
    (hok : 0 ≤ o.ret) (hlen : len ≠ 0)
    (hjs : bitand flags c.MAP_ANONYMOUS = 0 →
      env2._munmap_js o.ret len prot flags fd (wrapLong (off * c.SYSCALL_MMAP2_UNIT)) = 0) :
    (__syscall_munmap c env2 o.mappings o.ret len).ret = 0 ∧
    (__syscall_munmap c env2 o.mappings o.ret len).mappings = T ∧
    ((∀ r ∈ T, r.addr ≠ o.ret) →
      __syscall_munmap c env3 (__syscall_munmap c env2 o.mappings o.ret len).mappings
          o.ret len = ⟨-c.EINVAL, T, [Event.LOCK, Event.UNLOCK]⟩) := by
  have key : (__syscall_munmap c env2 o.mappings o.ret len).ret = 0 ∧
      (__syscall_munmap c env2 o.mappings o.ret len).mappings = T := by
    obtain ⟨r, hr, hret, hrl, hrf, hrp, hro, -, hfile⟩ :=
      mmap2_nonneg_record c env1 T addr len prot flags fd off o hE hM hmap hok
    rw [hr, hret, munmap_head c env2 r T len hlen hrl]
    refine ⟨?_, rfl⟩
    show (munmap_release c env2 r r.addr len).1 = 0
    rw [munmap_release_fst]
    by_cases ha : bitand flags c.MAP_ANONYMOUS = 0
    · have hz := hjs ha
      rw [hret, ← hrp, ← hrf, ← (hfile ha).1, ← hro] at hz
      rw [if_neg (fun hc => hc.2 hz)]
    · rw [← hrf] at ha
      rw [if_neg (fun hc => ha hc.1)]
  refine ⟨key.1, key.2, ?_⟩
  intro hT
  rw [key.2]
  exact munmap_absent c env3 T o.ret len hT

/-- C1 at the example of the specification: an anonymous read/write mapping of 4096 bytes
on the empty list, placed at 65536; the first `__syscall_munmap(65536, 4096)` returns 0 and
leaves the empty list, the second returns `-EINVAL` (-28). -/
theorem C1_map_unmap_unmap_witness :
    (__syscall_munmap wasm32 (envOf 0 0 0 0 0 0) [anonAt65536 4096] 65536 4096).ret = 0 ∧
    (__syscall_munmap wasm32 (envOf 0 0 0 0 0 0) [anonAt65536 4096] 65536 4096).mappings
      = [] ∧
    __syscall_munmap wasm32 (envOf 0 0 0 0 0 0)
        (__syscall_munmap wasm32 (envOf 0 0 0 0 0 0) [anonAt65536 4096] 65536 4096).mappings
        65536 4096 = ⟨-28, [], [Event.LOCK, Event.UNLOCK]⟩ :=
  have h := C1_map_unmap_unmap wasm32 (envOf 65536 0 0 0 0 0) (envOf 0 0 0 0 0 0)
    (envOf 0 0 0 0 0 0) [] 0 4096 3 0x22 (-1) 0
    ⟨65536, [anonAt65536 4096],
      [Event.emscripten_builtin_memalign 65536 4136, Event.memset 65536 0 4096,
       Event.LOCK, Event.UNLOCK]⟩
    (by decide) (by decide) (by decide) (by decide) (by decide) (by decide)
  ⟨h.1, h.2.1, h.2.2 (fun r hr => absurd hr (List.not_mem_nil r))⟩

/-! ## C2: unmap with another length -/

/-- C2, as stated, fails where two records have the same address.  Two file-backed calls
of `__syscall_mmap2` for which `_mmap_js` answers 65536 both times, the first of 4096 bytes
and the second of 8192, leave a list that contains a record at 65536 with stored length
4096; 8192 is different from 4096, and `__syscall_munmap(65536, 8192)` on that list returns
0, calls `_munmap_js` and `emscripten_builtin_free`, and removes the record at the head. -/
theorem C2_counterexample :
    run wasm32 []
        [Call.mmap2 (envOf 0 131072 65536 0 0 0) 0 4096 1 1 3 0,
         Call.mmap2 (envOf 0 131112 65536 0 0 0) 0 8192 1 1 3 0] =
      some [fileAt65536 131112 8192, fileAt65536 131072 4096] ∧
    fileAt65536 131072 4096 ∈ [fileAt65536 131112 8192, fileAt65536 131072 4096] ∧
    (fileAt65536 131072 4096).addr = 65536 ∧
    (fileAt65536 131072 4096).length = 4096 ∧
    (8192 : Int) ≠ 4096 ∧
    __syscall_munmap wasm32 (envOf 0 0 0 0 0 0)
        [fileAt65536 131112 8192, fileAt65536 131072 4096] 65536 8192 =
      ⟨0, [fileAt65536 131072 4096],
        [Event.LOCK, Event.UNLOCK, Event._munmap_js 65536 8192 1 1 3 0,
         Event.emscripten_builtin_free 131112]⟩ := by
  refine ⟨?_, ?_, ?_, ?_, ?_, ?_⟩ <;> decide

/-- C2, amended.  When the first record in list order whose address is `A` (the record
`m`, after the records `pre`, none of which has address `A`) has a stored length different
from `L'`, `__syscall_munmap(A, L')` returns `-EINVAL`, leaves the list exactly as it was,
and does nothing but take and release the lock: no call of `_munmap_js`, none of the
allocator. -/
theorem C2_munmap_other_length (c : Consts) (env : Env) (pre : List map) (m : map)
    (post : List map) (A L' : Int)
    (hpre : ∀ r ∈ pre, r.addr ≠ A) (hm : m.addr = A) (hne : L' ≠ m.length) :
    __syscall_munmap c env (pre ++ m :: post) A L' =
      ⟨-c.EINVAL, pre ++ m :: post, [Event.LOCK, Event.UNLOCK]⟩ := by
  rw [munmap_split c env pre m post A L' hpre hm]
  by_cases h0 : L' = 0
  · rw [if_pos h0]
  · rw [if_neg h0, if_pos (fun h => hne h.symm)]

/-- C2 at a list of two records: `__syscall_munmap(131072, 100)` for the second one, whose
stored length is 8192, not 100. -/
theorem C2_munmap_other_length_witness :
    __syscall_munmap wasm32 (envOf 0 0 0 0 0 0)
        ([anonAt65536 4096] ++ fileAt131072 :: [])
        131072 100 =
      ⟨-28, [anonAt65536 4096] ++ fileAt131072 :: [],
        [Event.LOCK, Event.UNLOCK]⟩ :=
  C2_munmap_other_length wasm32 (envOf 0 0 0 0 0 0) [anonAt65536 4096]
    fileAt131072 [] 131072 100
    (by decide) (by decide) (by decide)

/-! ## C3: addresses in the list -/

/-- One call keeps the addresses of the list distinct, when it is a `freshCall`. -/
theorem nodup_step (c : Consts) (T : List map) (call : Call) (o : Outcome)
    (hn : (T.map map.addr).Nodup) (hs : step c T call = some o)
    (hf : freshCall c T call) : (o.mappings.map map.addr).Nodup := by
  cases call with
  | mmap2 env addr len prot flags fd off =>
    rcases mmap2_mappings c env T addr len prot flags fd off o hs with h | ⟨r, h⟩
    · rw [h]; exact hn
    · have hfresh := hf o r hs h
      rw [h, List.map_cons]
      refine List.nodup_cons.mpr ⟨?_, hn⟩
      intro hmem
      obtain ⟨m, hmT, hma⟩ := List.mem_map.mp hmem
      exact hfresh m hmT hma
  | munmap env addr length =>
    have ho : __syscall_munmap c env T addr length = o := Option.some.inj hs
    rw [← ho]
    exact List.Nodup.sublist
      (List.Sublist.map map.addr (munmap_mappings_sublist c env T addr length)) hn
  | msync env addr len flags =>
    have ho : __syscall_msync c env T addr len flags = o := Option.some.inj hs
    rw [← ho, msync_mappings]
    exact hn

/-- A sequence of calls keeps the addresses of the list distinct, when it is a
`freshRun`. -/
theorem nodup_run (c : Consts) (calls : List Call) :
    ∀ T0 T : List map, (T0.map map.addr).Nodup → run c T0 calls = some T →
      freshRun c T0 calls → (T.map map.addr).Nodup := by
  induction calls with
  | nil =>
    intro T0 T hn hr _
    have e : T0 = T := Option.some.inj hr
    rw [← e]; exact hn
  | cons call rest ih =>
    intro T0 T hn hr hf
    unfold run at hr
    cases hs : step c T0 call with
    | none => rw [hs] at hr; exact absurd hr (by simp)
    | some o =>
      rw [hs] at hr
      exact ih o.mappings T (nodup_step c T0 call o hn hs hf.1) hr (hf.2 o hs)

/-- C3, as stated, fails: two file-backed calls of `__syscall_mmap2` for which `_mmap_js`
answers the same address 65536 (a shared mapping of the same file, in memory the JS library
did not allocate) leave, from the empty list, a list of two records with the same `addr`. -/
theorem C3_counterexample :
    run wasm32 []
        [Call.mmap2 (envOf 0 131072 65536 0 0 0) 0 4096 1 1 3 0,
         Call.mmap2 (envOf 0 131112 65536 0 0 0) 0 4096 1 1 3 0] =
      some [fileAt65536 131112 4096, fileAt65536 131072 4096] ∧
    (fileAt65536 131112 4096).addr = (fileAt65536 131072 4096).addr ∧
    ¬ ([fileAt65536 131112 4096, fileAt65536 131072 4096].map map.addr).Nodup := by
  refine ⟨?_, ?_, ?_⟩ <;> decide

/-- C3, amended.  In every list reached from the empty list by a sequence of calls of
`__syscall_mmap2`, `__syscall_munmap` and `__syscall_msync` in which no call pushes a
record whose `addr` a record of the list already has (the allocator and `_mmap_js` hand out
only addresses not in the list), no two records have the same `addr`. -/
theorem C3_addresses_distinct (c : Consts) (calls : List Call) (T : List map)
    (hrun : run c [] calls = some T) (hfresh : freshRun c [] calls) :
    (T.map map.addr).Nodup :=
  nodup_run c calls [] T List.nodup_nil hrun hfresh

/-- A call whose outcome is `o` is a `freshCall` when `o` has no more records than the list
had, or the record at its head has an address that no record of the list has. -/
theorem freshCall_of_step (c : Consts) (T : List map) (call : Call) (o : Outcome)
    (hs : step c T call = some o)
    (h : o.mappings.length ≤ T.length ∨
      ∀ m ∈ T, ∀ r ∈ o.mappings.head?, m.addr ≠ r.addr) :
    freshCall c T call := by
  intro o' r hs' hr m hm
  rw [hs] at hs'
  have e : o = o' := Option.some.inj hs'
  subst e
  rcases h with h | h
  · rw [hr, List.length_cons] at h
    omega
  · exact h m hm r (by rw [hr]; rfl)

/-- C3 at a sequence of three calls: an anonymous mapping placed at 65536, a file-backed
one placed at 131072, and the unmapping of the first. -/
theorem C3_addresses_distinct_witness :
    run wasm32 []
        [Call.mmap2 (envOf 65536 0 0 0 0 0) 0 4096 3 0x22 (-1) 0,
         Call.mmap2 (envOf 0 196608 131072 1 0 0) 0 8192 1 2 3 0,
         Call.munmap (envOf 0 0 0 0 0 0) 65536 4096] = some [fileAt131072] ∧
    ([fileAt131072].map map.addr).Nodup := by
  have hrun : run wasm32 []
        [Call.mmap2 (envOf 65536 0 0 0 0 0) 0 4096 3 0x22 (-1) 0,
         Call.mmap2 (envOf 0 196608 131072 1 0 0) 0 8192 1 2 3 0,
         Call.munmap (envOf 0 0 0 0 0 0) 65536 4096] = some [fileAt131072] := by decide
  have h1 : step wasm32 [] (Call.mmap2 (envOf 65536 0 0 0 0 0) 0 4096 3 0x22 (-1) 0) =
      some ⟨65536, [anonAt65536 4096],
        [Event.emscripten_builtin_memalign 65536 4136, Event.memset 65536 0 4096,
         Event.LOCK, Event.UNLOCK]⟩ := by decide
  have h2 : step wasm32 [anonAt65536 4096]
        (Call.mmap2 (envOf 0 196608 131072 1 0 0) 0 8192 1 2 3 0) =
      some ⟨131072, [fileAt131072, anonAt65536 4096],
        [Event.emscripten_builtin_malloc 40, Event._mmap_js 0 8192 1 2 3 0 196608,
         Event.LOCK, Event.UNLOCK]⟩ := by decide
  have h3 : step wasm32 [fileAt131072, anonAt65536 4096]
        (Call.munmap (envOf 0 0 0 0 0 0) 65536 4096) =
      some ⟨0, [fileAt131072],
        [Event.LOCK, Event.UNLOCK, Event.emscripten_builtin_free 65536]⟩ := by decide
  have hfresh : freshRun wasm32 []
        [Call.mmap2 (envOf 65536 0 0 0 0 0) 0 4096 3 0x22 (-1) 0,
         Call.mmap2 (envOf 0 196608 131072 1 0 0) 0 8192 1 2 3 0,
         Call.munmap (envOf 0 0 0 0 0 0) 65536 4096] := by
    refine ⟨freshCall_of_step _ _ _ _ h1 (by decide), fun o1 ho1 => ?_⟩
    rw [h1] at ho1
    have e1 := Option.some.inj ho1
    subst e1
    refine ⟨freshCall_of_step _ _ _ _ h2 (by decide), fun o2 ho2 => ?_⟩
    rw [h2] at ho2
    have e2 := Option.some.inj ho2
    subst e2
    refine ⟨freshCall_of_step _ _ _ _ h3 (by decide), fun o3 _ => trivial⟩
  exact ⟨hrun, C3_addresses_distinct wasm32 _ [fileAt131072] hrun hfresh⟩

/-! ## C4: `MAP_FIXED` with a misaligned address -/

/-- C4.  When `flags` contains `MAP_FIXED` and `addr` is not a multiple of
`WASM_PAGE_SIZE`, `__syscall_mmap2` returns `-EINVAL`, leaves the list unchanged and makes
no call at all: none of the allocator, none of `_mmap_js`. -/
theorem C4_fixed_misaligned (c : Consts) (env : Env) (T : List map)
    (addr len prot flags fd off : Int)
    (hfixed : bitand flags c.MAP_FIXED ≠ 0) (hmis : ¬ c.WASM_PAGE_SIZE ∣ addr) :
    __syscall_mmap2 c env T addr len prot flags fd off = some ⟨-c.EINVAL, T, []⟩ := by
  have hmod : Int.tmod addr c.WASM_PAGE_SIZE ≠ 0 :=
    fun h => hmis (Int.dvd_of_tmod_eq_zero h)
  unfold __syscall_mmap2
  rw [if_pos ⟨hfixed, hmod⟩]

/-- C4 at `addr = 4096` with `MAP_FIXED | MAP_PRIVATE | MAP_ANONYMOUS`, on a list of one
record and with an allocator that would have answered. -/
theorem C4_fixed_misaligned_witness :
    bitand 0x32 wasm32.MAP_FIXED ≠ 0 ∧ ¬ wasm32.WASM_PAGE_SIZE ∣ 4096 ∧
    __syscall_mmap2 wasm32 (envOf 131072 0 0 0 0 0) [anonAt65536 4096] 4096 4096 3 0x32 (-1) 0
      = some ⟨-28, [anonAt65536 4096], []⟩ :=
  ⟨by decide, by decide,
    C4_fixed_misaligned wasm32 (envOf 131072 0 0 0 0 0) [anonAt65536 4096]
      4096 4096 3 0x32 (-1) 0 (by decide) (by decide)⟩

/-! ## C5: `__syscall_msync` on an anonymous mapping and on an unknown address -/

/-- C5.  When the record found for `A` (the first record in list order whose address is
`A`: `m`, after the records `pre`) is anonymous, `__syscall_msync(A, len, flags)` returns 0
for every `len` and `flags`, and does nothing but take and release the lock, so
`_msync_js` is not called; when no record of the list `T` has address `A`, it returns
`-EINVAL`. -/
theorem C5_msync_anonymous_unknown (c : Consts) (env : Env) (pre : List map) (m : map)
    (post T : List map) (A len flags : Int) :
    ((∀ r ∈ pre, r.addr ≠ A) → m.addr = A → bitand m.flags c.MAP_ANONYMOUS ≠ 0 →
      __syscall_msync c env (pre ++ m :: post) A len flags =
        ⟨0, pre ++ m :: post, [Event.LOCK, Event.UNLOCK]⟩) ∧
    ((∀ r ∈ T, r.addr ≠ A) →
      __syscall_msync c env T A len flags = ⟨-c.EINVAL, T, [Event.LOCK, Event.UNLOCK]⟩) := by
  constructor
  · intro hpre hm hanon
    rw [msync_split c env pre m post A len flags hpre hm, if_pos hanon]
  · intro hT
    have h1 := find_mapping_loop_none A T 0 none hT
    unfold __syscall_msync find_mapping
    rw [h1]

/-- C5 at the list of a file-backed record followed by an anonymous one: `msync` of the
anonymous one, with a JS library that would have answered -5, and of an address that is not
in the list. -/
theorem C5_msync_anonymous_unknown_witness :
    __syscall_msync wasm32 (envOf 0 0 0 0 0 (-5)) [fileAt131072, anonAt65536 4096]
        65536 4096 0 = ⟨0, [fileAt131072, anonAt65536 4096], [Event.LOCK, Event.UNLOCK]⟩ ∧
    __syscall_msync wasm32 (envOf 0 0 0 0 0 (-5)) [fileAt131072, anonAt65536 4096]
        262144 4096 0 =
      ⟨-28, [fileAt131072, anonAt65536 4096], [Event.LOCK, Event.UNLOCK]⟩ :=
  ⟨(C5_msync_anonymous_unknown wasm32 (envOf 0 0 0 0 0 (-5)) [fileAt131072]
      (anonAt65536 4096) [] [] 65536 4096 0).1 (by decide) (by decide) (by decide),
   (C5_msync_anonymous_unknown wasm32 (envOf 0 0 0 0 0 (-5)) []
      (anonAt65536 4096) [] [fileAt131072, anonAt65536 4096] 262144 4096 0).2 (by decide)⟩

/-! ## C6: unmap of an unknown address or of length zero -/

/-- C6.  When no record of the list has address `A`, or `L` is 0,
`__syscall_munmap(A, L)` returns `-EINVAL`, leaves the list unchanged, and does nothing but
take and release the lock: no call of `_munmap_js`, none of `emscripten_builtin_free`. -/
theorem C6_munmap_unknown_or_zero (c : Consts) (env : Env) (T : List map) (A L : Int)
    (h : (∀ r ∈ T, r.addr ≠ A) ∨ L = 0) :
    __syscall_munmap c env T A L = ⟨-c.EINVAL, T, [Event.LOCK, Event.UNLOCK]⟩ := by
  rcases exists_first A T with habs | ⟨pre, m, post, e, hpre, hm⟩
  · exact munmap_absent c env T A L habs
  · rcases h with h | h
    · exact munmap_absent c env T A L h
    · subst e
      rw [munmap_split c env pre m post A L hpre hm, if_pos h]

/-- C6 at `__syscall_munmap(65536, 0)` on a list that has a record at 65536. -/
theorem C6_munmap_unknown_or_zero_witness :
    __syscall_munmap wasm32 (envOf 0 0 0 0 0 0) [fileAt131072, anonAt65536 4096] 65536 0 =
      ⟨-28, [fileAt131072, anonAt65536 4096], [Event.LOCK, Event.UNLOCK]⟩ :=
  C6_munmap_unknown_or_zero wasm32 (envOf 0 0 0 0 0 0) [fileAt131072, anonAt65536 4096]
    65536 0 (Or.inr rfl)

/-! ## C7: what a successful `__syscall_mmap2` leaves -/

/-- C7.  When `__syscall_mmap2(addr, len, prot, flags, fd, off)` on the list `T` succeeds
(returns a value that is not negative), the list afterwards is one new record `r` followed
by `T`, the value returned is `r.addr`, and `r` holds `length = len`, `flags = flags`,
`prot = prot` and `offset = off * SYSCALL_MMAP2_UNIT` (wrapped to a `long`); for an
anonymous mapping `allocated = 1`, `fd = -1` and `addr` is what
`emscripten_builtin_memalign` answered; for a file-backed one `fd = fd`, and `addr` and
`allocated` are what `_mmap_js` answered. -/
theorem C7_mmap2_pushes_record (c : Consts) (env : Env) (T : List map)
    (addr len prot flags fd off : Int) (o : Outcome)
    (hE : 0 < c.EINVAL) (hM : 0 < c.ENOMEM)
    (h : __syscall_mmap2 c env T addr len prot flags fd off = some o) (hok : 0 ≤ o.ret) :
    ∃ r : map, o.mappings = r :: T ∧ o.ret = r.addr ∧
      r.length = len ∧ r.flags = flags ∧ r.prot = prot ∧
      r.offset = wrapLong (off * c.SYSCALL_MMAP2_UNIT) ∧
      (bitand flags c.MAP_ANONYMOUS ≠ 0 →
        r.allocated = 1 ∧ r.fd = -1 ∧
        r.addr = env.emscripten_builtin_memalign c.WASM_PAGE_SIZE
          (toSizeT (len + c.sizeof_map))) ∧
      (bitand flags c.MAP_ANONYMOUS = 0 →
        r.fd = fd ∧
        r.addr = (env._mmap_js addr len prot flags fd (wrapLong (off * c.SYSCALL_MMAP2_UNIT))
          (env.emscripten_builtin_malloc c.sizeof_map)).1 ∧
        r.allocated = (env._mmap_js addr len prot flags fd
          (wrapLong (off * c.SYSCALL_MMAP2_UNIT))
          (env.emscripten_builtin_malloc c.sizeof_map)).2) := by
  rcases mmap2_nonneg c env T addr len prot flags fd off o hE hM h hok with
    ⟨ha, ho⟩ | ⟨hf, ho⟩
  · rw [ho]
    exact ⟨_, rfl, rfl, rfl, rfl, rfl, rfl, fun _ => ⟨rfl, rfl, rfl⟩,
      fun h0 => absurd h0 ha⟩
  · rw [ho]
    exact ⟨_, rfl, rfl, rfl, rfl, rfl, rfl, fun h0 => absurd hf h0,
      fun _ => ⟨rfl, rfl, rfl⟩⟩

/-- C7 at a file-backed call with `off = 2` on a list of one record, `_mmap_js` answering
the address 131072 in memory it allocated. -/
theorem C7_mmap2_pushes_record_witness :
    ∃ r : map, [{ fileAt131072 with offset := 8192 }, anonAt65536 4096] =
        r :: [anonAt65536 4096] ∧ (131072 : Int) = r.addr ∧
      r.length = 8192 ∧ r.flags = 2 ∧ r.prot = 1 ∧
      r.offset = wrapLong (2 * wasm32.SYSCALL_MMAP2_UNIT) ∧
      (bitand 2 wasm32.MAP_ANONYMOUS ≠ 0 →
        r.allocated = 1 ∧ r.fd = -1 ∧
        r.addr = (envOf 0 196608 131072 1 0 0).emscripten_builtin_memalign
          wasm32.WASM_PAGE_SIZE (toSizeT (8192 + wasm32.sizeof_map))) ∧
      (bitand 2 wasm32.MAP_ANONYMOUS = 0 →
        r.fd = 3 ∧
        r.addr = ((envOf 0 196608 131072 1 0 0)._mmap_js 0 8192 1 2 3
          (wrapLong (2 * wasm32.SYSCALL_MMAP2_UNIT))
          ((envOf 0 196608 131072 1 0 0).emscripten_builtin_malloc wasm32.sizeof_map)).1 ∧
        r.allocated = ((envOf 0 196608 131072 1 0 0)._mmap_js 0 8192 1 2 3
          (wrapLong (2 * wasm32.SYSCALL_MMAP2_UNIT))
          ((envOf 0 196608 131072 1 0 0).emscripten_builtin_malloc wasm32.sizeof_map)).2) :=
  C7_mmap2_pushes_record wasm32 (envOf 0 196608 131072 1 0 0) [anonAt65536 4096]
    0 8192 1 2 3 2
    ⟨131072, [{ fileAt131072 with offset := 8192 }, anonAt65536 4096],
      [Event.emscripten_builtin_malloc 40, Event._mmap_js 0 8192 1 2 3 8192 196608,
       Event.LOCK, Event.UNLOCK]⟩
    (by decide) (by decide) (by decide) (by decide)

/-! ## C8: a negative answer of `_mmap_js` -/

/-- C8.  In a file-backed call of `__syscall_mmap2` (`flags` without `MAP_ANONYMOUS`) that
passes the alignment check and in which `_mmap_js` answers a negative value, the call
returns exactly that value, the list is unchanged, and the last thing the call does is to
hand the record it had obtained from `emscripten_builtin_malloc` to
`emscripten_builtin_free`. -/
theorem C8_mmap_js_fails (c : Consts) (env : Env) (T : List map)
    (addr len prot flags fd off : Int)
    (hcheck : bitand flags c.MAP_FIXED = 0 ∨ c.WASM_PAGE_SIZE ∣ addr)
    (hfile : bitand flags c.MAP_ANONYMOUS = 0)
    (hneg : (env._mmap_js addr len prot flags fd (wrapLong (off * c.SYSCALL_MMAP2_UNIT))
      (env.emscripten_builtin_malloc c.sizeof_map)).1 < 0) :
    __syscall_mmap2 c env T addr len prot flags fd off =
      some ⟨(env._mmap_js addr len prot flags fd (wrapLong (off * c.SYSCALL_MMAP2_UNIT))
          (env.emscripten_builtin_malloc c.sizeof_map)).1, T,
        [Event.emscripten_builtin_malloc c.sizeof_map,
         Event._mmap_js addr len prot flags fd (wrapLong (off * c.SYSCALL_MMAP2_UNIT))
           (env.emscripten_builtin_malloc c.sizeof_map),
         Event.emscripten_builtin_free (env.emscripten_builtin_malloc c.sizeof_map)]⟩ := by
  have h1 : ¬ (bitand flags c.MAP_FIXED ≠ 0 ∧ Int.tmod addr c.WASM_PAGE_SIZE ≠ 0) := by
    rintro ⟨hf, hm⟩
    rcases hcheck with h | h
    · exact hf h
    · exact hm (Int.tmod_eq_zero_of_dvd h)
  unfold __syscall_mmap2
  dsimp only
  rw [if_neg h1, if_neg (not_not.mpr hfile), if_pos hneg]

/-- C8 at a shared mapping of file 3 for which `_mmap_js` answers -8, the record having
been allocated at 196608. -/
theorem C8_mmap_js_fails_witness :
    __syscall_mmap2 wasm32 (envOf 0 196608 (-8) 0 0 0) [anonAt65536 4096] 0 4096 1 1 3 0 =
      some ⟨-8, [anonAt65536 4096],
        [Event.emscripten_builtin_malloc 40, Event._mmap_js 0 4096 1 1 3 0 196608,
         Event.emscripten_builtin_free 196608]⟩ :=
  C8_mmap_js_fails wasm32 (envOf 0 196608 (-8) 0 0 0) [anonAt65536 4096] 0 4096 1 1 3 0
    (Or.inl (by decide)) (by decide) (by decide)

/-! ## C9: a failure of `_munmap_js` -/

/-- C9.  When `__syscall_munmap(A, L)` finds a file-backed record `m` at `A` (the first
record in list order whose address is `A`) with stored length `L`, `L` not 0, and
`_munmap_js` answers a value other than 0, the call returns that value and the record is
no longer in the list, which holds every other record, in the order they had; after
`_munmap_js` nothing else is called. -/
theorem C9_munmap_js_fails (c : Consts) (env : Env) (pre : List map) (m : map)
    (post : List map) (A L : Int)
    (hpre : ∀ r ∈ pre, r.addr ≠ A) (hm : m.addr = A)
    (hfile : bitand m.flags c.MAP_ANONYMOUS = 0) (hL : m.length = L) (hL0 : L ≠ 0)
    (hs : env._munmap_js A L m.prot m.flags m.fd m.offset ≠ 0) :
    __syscall_munmap c env (pre ++ m :: post) A L =
      ⟨env._munmap_js A L m.prot m.flags m.fd m.offset, pre ++ post,
        [Event.LOCK, Event.UNLOCK, Event._munmap_js A L m.prot m.flags m.fd m.offset]⟩ := by
  have hrel : munmap_release c env m A L =
      (env._munmap_js A L m.prot m.flags m.fd m.offset,
        [Event._munmap_js A L m.prot m.flags m.fd m.offset]) := by
    unfold munmap_release
    dsimp only
    rw [if_pos ⟨hfile, hs⟩, if_pos hfile]
  rw [munmap_split c env pre m post A L hpre hm, if_neg hL0, if_neg (not_not.mpr hL), hrel]
  rfl

/-- C9 at the list of an anonymous record, the file-backed record at 131072 and another
anonymous one, `_munmap_js` answering -5. -/
theorem C9_munmap_js_fails_witness :
    __syscall_munmap wasm32 (envOf 0 0 0 0 (-5) 0)
        ([anonAt65536 4096] ++ fileAt131072 :: [anonAt65536 100]) 131072 8192 =
      ⟨-5, [anonAt65536 4096] ++ [anonAt65536 100],
        [Event.LOCK, Event.UNLOCK, Event._munmap_js 131072 8192 1 2 3 0]⟩ :=
  C9_munmap_js_fails wasm32 (envOf 0 0 0 0 (-5) 0) [anonAt65536 4096] fileAt131072
    [anonAt65536 100] 131072 8192
    (by decide) (by decide) (by decide) (by decide) (by decide) (by decide)

/-! ## C10: the allocator answers `NULL` -/

/-- C10 fails for the file-backed branch, which does not test what
`emscripten_builtin_malloc` answered.  With `emscripten_builtin_malloc` answering `NULL`:
when `_mmap_js` answers -8, the call returns -8, not `-ENOMEM` (-48); when `_mmap_js`
answers the address 131072, the call stores through the null `new_map`.  (The anonymous
branch does test what `emscripten_builtin_memalign` answered and returns `-ENOMEM`.) -/
theorem C10_malloc_null_not_checked :
    __syscall_mmap2 wasm32 (envOf 0 0 (-8) 0 0 0) [anonAt65536 4096] 0 4096 1 1 3 0 =
      some ⟨-8, [anonAt65536 4096],
        [Event.emscripten_builtin_malloc 40, Event._mmap_js 0 4096 1 1 3 0 0,
         Event.emscripten_builtin_free 0]⟩ ∧
    __syscall_mmap2 wasm32 (envOf 0 0 131072 1 0 0) [anonAt65536 4096] 0 4096 1 1 3 0 =
      none ∧
    __syscall_mmap2 wasm32 (envOf 0 0 131072 1 0 0) [anonAt65536 4096] 0 4096 3 0x22 (-1) 0 =
      some ⟨-48, [anonAt65536 4096], [Event.emscripten_builtin_memalign 65536 4136]⟩ := by
  refine ⟨?_, ?_, ?_⟩ <;> decide

/-! ## C11: an anonymous mapping ignores `fd` -/

/-- No list is itself with one more record in front. -/
theorem ne_cons_self (r : map) (T : List map) : T ≠ r :: T := by
  intro h
  have hl := congrArg List.length h
  simp at hl

/-- C11.  For an anonymous call of `__syscall_mmap2` (`flags` containing `MAP_ANONYMOUS`),
two values `fd1` and `fd2` of the argument `fd`, with the same list, the same other
arguments and the same answers of the allocator, give the same outcome: the same value
returned, the same list, the same calls made.  In that outcome `_mmap_js` is not called,
and the record pushed, if one is, has `fd = -1`. -/
theorem C11_anonymous_ignores_fd (c : Consts) (env : Env) (T : List map)
    (addr len prot flags fd1 fd2 off : Int) (hanon : bitand flags c.MAP_ANONYMOUS ≠ 0) :
    __syscall_mmap2 c env T addr len prot flags fd1 off =
      __syscall_mmap2 c env T addr len prot flags fd2 off ∧
    ∀ o, __syscall_mmap2 c env T addr len prot flags fd1 off = some o →
      (∀ a l p f d x nm, Event._mmap_js a l p f d x nm ∉ o.trace) ∧
      (∀ r, o.mappings = r :: T → r.fd = -1) := by
  constructor
  · unfold __syscall_mmap2
    dsimp only
    rw [if_pos hanon, if_pos hanon]
  · intro o h
    unfold __syscall_mmap2 at h
    dsimp only at h
    rw [if_pos hanon] at h
    split_ifs at h <;> injection h with h <;> subst h
    · exact ⟨fun a l p f d x nm hmem => by simp at hmem,
        fun r hr => absurd hr (ne_cons_self r T)⟩
    · exact ⟨fun a l p f d x nm hmem => by simp at hmem,
        fun r hr => absurd hr (ne_cons_self r T)⟩
    · refine ⟨fun a l p f d x nm hmem => by simp at hmem, fun r hr => ?_⟩
      have e := (List.cons.inj hr).1
      rw [← e]

/-- C11 at an anonymous mapping of 4096 bytes with `fd = -1` and with `fd = 7`, the JS
library being ready to answer. -/
theorem C11_anonymous_ignores_fd_witness :
    __syscall_mmap2 wasm32 (envOf 65536 196608 131072 1 0 0) [fileAt131072] 0 4096 3 0x22
        (-1) 0 =
      __syscall_mmap2 wasm32 (envOf 65536 196608 131072 1 0 0) [fileAt131072] 0 4096 3 0x22
        7 0 ∧
    (∀ a l p f d x nm, Event._mmap_js a l p f d x nm ∉
      [Event.emscripten_builtin_memalign 65536 4136, Event.memset 65536 0 4096,
       Event.LOCK, Event.UNLOCK]) ∧
    (∀ r, [anonAt65536 4096, fileAt131072] = r :: [fileAt131072] → r.fd = -1) :=
  have h := C11_anonymous_ignores_fd wasm32 (envOf 65536 196608 131072 1 0 0) [fileAt131072]
    0 4096 3 0x22 (-1) 7 0 (by decide)
  ⟨h.1, h.2 ⟨65536, [anonAt65536 4096, fileAt131072],
      [Event.emscripten_builtin_memalign 65536 4136, Event.memset 65536 0 4096,
       Event.LOCK, Event.UNLOCK]⟩ (by decide)⟩

/-! ## C12: the offset -/

/-- The value `wrapLong x` is the `long` congruent to `x` modulo `2 ^ 32`. -/
theorem wrapLong_spec (x : Int) :
    wrapLong x % 2 ^ LONG_BITS = x % 2 ^ LONG_BITS ∧
    -(2 ^ (LONG_BITS - 1)) ≤ wrapLong x ∧ wrapLong x < 2 ^ (LONG_BITS - 1) := by
  have e : wrapLong x = (x + 2147483648) % 4294967296 - 2147483648 := by
    rw [wrapLong_eq]
    norm_num [LONG_BITS]
  have h1 : (2 : Int) ^ LONG_BITS = 4294967296 := by norm_num [LONG_BITS]
  have h2 : (2 : Int) ^ (LONG_BITS - 1) = 2147483648 := by norm_num [LONG_BITS]
  rw [h1, h2, e]
  omega

/-- C12.  In every call of `__syscall_mmap2` with offset argument `off`: (1) every call of
`_mmap_js` it makes is handed `off * SYSCALL_MMAP2_UNIT` wrapped to a `long`, (2) a
file-backed call that passes the alignment check does call `_mmap_js`, (3) the record
pushed, if one is, stores that same value as `offset`, and (4) that value is the `long`
congruent to `off * SYSCALL_MMAP2_UNIT` modulo `2 ^ 32`.  And in every call of
`__syscall_munmap` that finds the record `m`: (5) every call of `_munmap_js` it makes is
handed `m.offset`, and (6) it does call `_munmap_js` when `m` is file-backed and the length
is the stored one and not 0. -/
theorem C12_offset_scaled (c : Consts) (env : Env) (T : List map)
    (addr len prot flags fd off : Int) (pre : List map) (m : map) (post : List map)
    (A L : Int) :
    (∀ o, __syscall_mmap2 c env T addr len prot flags fd off = some o →
      (∀ a l p f d x nm, Event._mmap_js a l p f d x nm ∈ o.trace →
        x = wrapLong (off * c.SYSCALL_MMAP2_UNIT)) ∧
      (bitand flags c.MAP_ANONYMOUS = 0 →
        (bitand flags c.MAP_FIXED = 0 ∨ c.WASM_PAGE_SIZE ∣ addr) →
        Event._mmap_js addr len prot flags fd (wrapLong (off * c.SYSCALL_MMAP2_UNIT))
          (env.emscripten_builtin_malloc c.sizeof_map) ∈ o.trace) ∧
      (∀ r, o.mappings = r :: T → r.offset = wrapLong (off * c.SYSCALL_MMAP2_UNIT))) ∧
    (wrapLong (off * c.SYSCALL_MMAP2_UNIT) % 2 ^ LONG_BITS =
        (off * c.SYSCALL_MMAP2_UNIT) % 2 ^ LONG_BITS ∧
      -(2 ^ (LONG_BITS - 1)) ≤ wrapLong (off * c.SYSCALL_MMAP2_UNIT) ∧
      wrapLong (off * c.SYSCALL_MMAP2_UNIT) < 2 ^ (LONG_BITS - 1)) ∧
    ((∀ r ∈ pre, r.addr ≠ A) → m.addr = A →
      (∀ a l p f d x, Event._munmap_js a l p f d x ∈
          (__syscall_munmap c env (pre ++ m :: post) A L).trace → x = m.offset) ∧
      (bitand m.flags c.MAP_ANONYMOUS = 0 → m.length = L → L ≠ 0 →
        Event._munmap_js A L m.prot m.flags m.fd m.offset ∈
          (__syscall_munmap c env (pre ++ m :: post) A L).trace)) := by
  refine ⟨?_, wrapLong_spec _, ?_⟩
  · intro o h
    unfold __syscall_mmap2 at h
    dsimp only at h
    split_ifs at h with h1 h2 h3 h4 h5 <;> injection h with h <;> subst h
    · refine ⟨fun a l p f d x nm hmem => by simp at hmem, fun hf hc => ?_,
        fun r hr => absurd hr (ne_cons_self r T)⟩
      rcases hc with hc | hc
      · exact absurd hc h1.1
      · exact absurd (Int.tmod_eq_zero_of_dvd hc) h1.2
    · exact ⟨fun a l p f d x nm hmem => by simp at hmem, fun hf _ => absurd hf h2,
        fun r hr => absurd hr (ne_cons_self r T)⟩
    · refine ⟨fun a l p f d x nm hmem => by simp at hmem, fun hf _ => absurd hf h2,
        fun r hr => ?_⟩
      have e := (List.cons.inj hr).1
      rw [← e]
    · refine ⟨fun a l p f d x nm hmem => ?_, fun _ _ => by simp,
        fun r hr => absurd hr (ne_cons_self r T)⟩
      simp at hmem
      exact hmem.2.2.2.2.2.1
    · refine ⟨fun a l p f d x nm hmem => ?_, fun _ _ => by simp, fun r hr => ?_⟩
      · simp at hmem
        exact hmem.2.2.2.2.2.1
      · have e := (List.cons.inj hr).1
        rw [← e]
  · intro hpre hm
    rw [munmap_split c env pre m post A L hpre hm]
    constructor
    · intro a l p f d x hmem
      split_ifs at hmem with h1 h2
      · simp at hmem
      · simp at hmem
      · unfold munmap_release at hmem
        dsimp only at hmem
        split_ifs at hmem <;> simp at hmem <;> exact hmem.2.2.2.2.2
    · intro hfile hL hL0
      rw [if_neg hL0, if_neg (not_not.mpr hL)]
      unfold munmap_release
      dsimp only
      rw [if_pos hfile]
      split_ifs <;> simp

/-- C12 at a file-backed call with `off = 1048577`, for which `off * 4096` leaves the range
of a `long` and wraps to 4096: `_mmap_js` is handed 4096, the record stores 4096, and the
later `__syscall_munmap` hands 4096 to `_munmap_js`. -/
theorem C12_offset_scaled_witness :
    Event._mmap_js 0 8192 1 2 3 (wrapLong (1048577 * wasm32.SYSCALL_MMAP2_UNIT))
        ((envOf 0 196608 131072 1 0 0).emscripten_builtin_malloc wasm32.sizeof_map) ∈
      [Event.emscripten_builtin_malloc 40, Event._mmap_js 0 8192 1 2 3 4096 196608,
       Event.LOCK, Event.UNLOCK] ∧
    ({ fileAt131072 with offset := 4096 } : map).offset =
      wrapLong (1048577 * wasm32.SYSCALL_MMAP2_UNIT) ∧
    Event._munmap_js 131072 8192 1 2 3 4096 ∈
      (__syscall_munmap wasm32 (envOf 0 196608 131072 1 0 0)
        ([] ++ { fileAt131072 with offset := 4096 } :: []) 131072 8192).trace :=
  have h := C12_offset_scaled wasm32 (envOf 0 196608 131072 1 0 0) []
    0 8192 1 2 3 1048577 [] { fileAt131072 with offset := 4096 } [] 131072 8192
  have ho := h.1 ⟨131072, [{ fileAt131072 with offset := 4096 }],
      [Event.emscripten_builtin_malloc 40, Event._mmap_js 0 8192 1 2 3 4096 196608,
       Event.LOCK, Event.UNLOCK]⟩ (by decide)
  ⟨ho.2.1 (by decide) (Or.inl (by decide)), ho.2.2 _ rfl,
    (h.2.2 (by decide) (by decide)).2 (by decide) (by decide) (by decide)⟩

/-! ## C14: what `__syscall_munmap` removes -/

/-- C14.  When `__syscall_munmap(A, L)` passes its checks (the first record in list order
whose address is `A`, the record `m` after the records `pre`, has stored length `L`, and
`L` is not 0), the list afterwards is the list before with exactly that record removed:
the records before it and the records after it, unmodified and in the same order.  This
holds whatever `_munmap_js` answers. -/
theorem C14_munmap_removes_first (c : Consts) (env : Env) (pre : List map) (m : map)
    (post : List map) (A L : Int)
    (hpre : ∀ r ∈ pre, r.addr ≠ A) (hm : m.addr = A) (hL : m.length = L) (hL0 : L ≠ 0) :
    (__syscall_munmap c env (pre ++ m :: post) A L).mappings = pre ++ post ∧
    pre ++ post = (pre ++ m :: post).eraseIdx pre.length := by
  constructor
  · rw [munmap_split c env pre m post A L hpre hm, if_neg hL0, if_neg (not_not.mpr hL)]
  · rw [List.eraseIdx_append_of_length_le (Nat.le_refl _)]
    simp

/-- C14 at a list of three records of which the second and the third have address 131072:
`__syscall_munmap(131072, 8192)` removes the second and keeps the third. -/
theorem C14_munmap_removes_first_witness :
    (__syscall_munmap wasm32 (envOf 0 0 0 0 0 0)
        ([anonAt65536 4096] ++ fileAt131072 :: [{ fileAt131072 with self := 262144 }])
        131072 8192).mappings =
      [anonAt65536 4096] ++ [{ fileAt131072 with self := 262144 }] ∧
    [anonAt65536 4096] ++ [{ fileAt131072 with self := 262144 }] =
      ([anonAt65536 4096] ++ fileAt131072 :: [{ fileAt131072 with self := 262144 }]).eraseIdx
        [anonAt65536 4096].length :=
  C14_munmap_removes_first wasm32 (envOf 0 0 0 0 0 0) [anonAt65536 4096] fileAt131072
    [{ fileAt131072 with self := 262144 }] 131072 8192
    (by decide) (by decide) (by decide) (by decide)

/-! ## C17: `__syscall_msync` on a file-backed mapping -/

/-- C17.  When the first record in list order whose address is `A` (the record `m`) is
file-backed, `__syscall_msync(A, len, flags)` calls `_msync_js` once, after the lock is
released, with `(A, len, m.flags, m.fd)`, returns exactly what it answers, and leaves the
list unchanged.  Nothing is asked of `len`, so it does not matter whether `len` is the
stored length; and the outcome is the same for any other value `flags'` of the argument
`flags`. -/
theorem C17_msync_file_backed (c : Consts) (env : Env) (pre : List map) (m : map)
    (post : List map) (A len flags flags' : Int)
    (hpre : ∀ r ∈ pre, r.addr ≠ A) (hm : m.addr = A)
    (hfile : bitand m.flags c.MAP_ANONYMOUS = 0) :
    __syscall_msync c env (pre ++ m :: post) A len flags =
      ⟨env._msync_js A len m.flags m.fd, pre ++ m :: post,
        [Event.LOCK, Event.UNLOCK, Event._msync_js A len m.flags m.fd]⟩ ∧
    __syscall_msync c env (pre ++ m :: post) A len flags' =
      __syscall_msync c env (pre ++ m :: post) A len flags := by
  have h : ∀ fl, __syscall_msync c env (pre ++ m :: post) A len fl =
      ⟨env._msync_js A len m.flags m.fd, pre ++ m :: post,
        [Event.LOCK, Event.UNLOCK, Event._msync_js A len m.flags m.fd]⟩ := by
    intro fl
    rw [msync_split c env pre m post A len fl hpre hm, if_neg (not_not.mpr hfile)]
  exact ⟨h flags, by rw [h flags', h flags]⟩

/-- C17 at the file-backed record at 131072 (stored length 8192, stored flags 2, fd 3),
with `len = 100`, the arguments `flags = 4` and `flags' = 1`, and `_msync_js` answering
-5. -/
theorem C17_msync_file_backed_witness :
    __syscall_msync wasm32 (envOf 0 0 0 0 0 (-5)) ([anonAt65536 4096] ++ fileAt131072 :: [])
        131072 100 4 =
      ⟨-5, [anonAt65536 4096] ++ fileAt131072 :: [],
        [Event.LOCK, Event.UNLOCK, Event._msync_js 131072 100 2 3]⟩ ∧
    __syscall_msync wasm32 (envOf 0 0 0 0 0 (-5)) ([anonAt65536 4096] ++ fileAt131072 :: [])
        131072 100 1 =
      __syscall_msync wasm32 (envOf 0 0 0 0 0 (-5)) ([anonAt65536 4096] ++ fileAt131072 :: [])
        131072 100 4 :=
  C17_msync_file_backed wasm32 (envOf 0 0 0 0 0 (-5)) [anonAt65536 4096] fileAt131072 []
    131072 100 4 1 (by decide) (by decide) (by decide)

/-! ## C15: the lock -/

/-- The calls that `__syscall_munmap` makes once the record is unlinked, read with the lock
not held, obey `lockDiscipline`. -/
theorem lockDiscipline_munmap_release (c : Consts) (env : Env) (m : map) (addr length : Int) :
    lockDiscipline false (munmap_release c env m addr length).2 = true := by
  unfold munmap_release
  dsimp only
  split_ifs <;> rfl

/-- The call `__syscall_msync(addr, len, flags)` when no record has address `addr`. -/
theorem msync_absent (c : Consts) (env : Env) (T : List map) (addr len flags : Int)
    (h : ∀ r ∈ T, r.addr ≠ addr) :
    __syscall_msync c env T addr len flags = ⟨-c.EINVAL, T, [Event.LOCK, Event.UNLOCK]⟩ := by
  have h1 := find_mapping_loop_none addr T 0 none h
  unfold __syscall_msync find_mapping
  rw [h1]

/-- C15.  In every execution of `__syscall_mmap2` that returns, of `__syscall_munmap` and
of `__syscall_msync`, the trace obeys `lockDiscipline` from a moment at which the lock is
not held: the lock is not held when the call returns, and no call of `_mmap_js`,
`_munmap_js`, `_msync_js`, `emscripten_builtin_memalign`, `emscripten_builtin_malloc` or
`emscripten_builtin_free` is made between a `LOCK` and the `UNLOCK` after it. -/
theorem C15_lock_discipline (c : Consts) (env : Env) (T : List map)
    (addr len prot flags fd off A L : Int) :
    (∀ o, __syscall_mmap2 c env T addr len prot flags fd off = some o →
      lockDiscipline false o.trace = true) ∧
    lockDiscipline false (__syscall_munmap c env T A L).trace = true ∧
    lockDiscipline false (__syscall_msync c env T A len flags).trace = true := by
  refine ⟨?_, ?_, ?_⟩
  · intro o h
    unfold __syscall_mmap2 at h
    dsimp only at h
    split_ifs at h <;> injection h with h <;> subst h <;> rfl
  · rcases exists_first A T with habs | ⟨pre, m, post, e, hpre, hm⟩
    · rw [munmap_absent c env T A L habs]
      rfl
    · subst e
      rw [munmap_split c env pre m post A L hpre hm]
      split_ifs
      · rfl
      · rfl
      · exact lockDiscipline_munmap_release c env m A L
  · rcases exists_first A T with habs | ⟨pre, m, post, e, hpre, hm⟩
    · rw [msync_absent c env T A len flags habs]
      rfl
    · subst e
      rw [msync_split c env pre m post A len flags hpre hm]
      split_ifs <;> rfl

/-- C15 at a file-backed call of `__syscall_mmap2` on a list of two records. -/
theorem C15_lock_discipline_witness :
    lockDiscipline false
      [Event.emscripten_builtin_malloc 40, Event._mmap_js 0 8192 1 2 3 0 196608,
       Event.LOCK, Event.UNLOCK] = true ∧
    lockDiscipline false (__syscall_munmap wasm32 (envOf 0 196608 131072 1 0 (-5))
      [fileAt131072, anonAt65536 4096] 131072 8192).trace = true ∧
    lockDiscipline false (__syscall_msync wasm32 (envOf 0 196608 131072 1 0 (-5))
      [fileAt131072, anonAt65536 4096] 131072 8192 0).trace = true :=
  have h := C15_lock_discipline wasm32 (envOf 0 196608 131072 1 0 (-5))
    [fileAt131072, anonAt65536 4096] 0 8192 1 2 3 0 131072 8192
  ⟨h.1 ⟨131072, [fileAt131072, fileAt131072, anonAt65536 4096],
      [Event.emscripten_builtin_malloc 40, Event._mmap_js 0 8192 1 2 3 0 196608,
       Event.LOCK, Event.UNLOCK]⟩ (by decide), h.2.1, h.2.2⟩

/-! ## C16: what `__syscall_munmap` frees -/

/-- A record that `__syscall_mmap2` pushes for an anonymous mapping has `allocated = 1`. -/
theorem mmap2_pushed_allocated (c : Consts) (env : Env) (T : List map)
    (addr len prot flags fd off : Int) (o : Outcome) (r : map)
    (h : __syscall_mmap2 c env T addr len prot flags fd off = some o)
    (hr : o.mappings = r :: T) (ha : bitand r.flags c.MAP_ANONYMOUS ≠ 0) :
    r.allocated = 1 := by
  unfold __syscall_mmap2 at h
  dsimp only at h
  split_ifs at h with h1 h2 h3 h4 h5 <;> injection h with h <;> subst h
  · exact absurd hr (ne_cons_self r T)
  · exact absurd hr (ne_cons_self r T)
  · have e := (List.cons.inj hr).1
    rw [← e]
  · exact absurd hr (ne_cons_self r T)
  · have e := (List.cons.inj hr).1
    rw [← e] at ha
    exact absurd ha h2

/-- One call keeps the property that every anonymous record has `allocated = 1`. -/
theorem anonymous_allocated_step (c : Consts) (T : List map) (call : Call) (o : Outcome)
    (hT : ∀ r ∈ T, bitand r.flags c.MAP_ANONYMOUS ≠ 0 → r.allocated = 1)
    (hs : step c T call = some o) :
    ∀ r ∈ o.mappings, bitand r.flags c.MAP_ANONYMOUS ≠ 0 → r.allocated = 1 := by
  cases call with
  | mmap2 env addr len prot flags fd off =>
    rcases mmap2_mappings c env T addr len prot flags fd off o hs with h | ⟨r0, h⟩
    · rw [h]; exact hT
    · intro r hr ha
      rw [h] at hr
      rcases List.mem_cons.mp hr with e | hr
      · subst e
        exact mmap2_pushed_allocated c env T addr len prot flags fd off o r hs h ha
      · exact hT r hr ha
  | munmap env addr length =>
    have ho : __syscall_munmap c env T addr length = o := Option.some.inj hs
    intro r hr ha
    rw [← ho] at hr
    exact hT r ((munmap_mappings_sublist c env T addr length).subset hr) ha
  | msync env addr len flags =>
    have ho : __syscall_msync c env T addr len flags = o := Option.some.inj hs
    rw [← ho, msync_mappings]
    exact hT

/-- In a list reached from the empty list, every anonymous record has `allocated = 1`. -/
theorem anonymous_allocated_run (c : Consts) (calls : List Call) :
    ∀ T0 T : List map, (∀ r ∈ T0, bitand r.flags c.MAP_ANONYMOUS ≠ 0 → r.allocated = 1) →
      run c T0 calls = some T →
      ∀ r ∈ T, bitand r.flags c.MAP_ANONYMOUS ≠ 0 → r.allocated = 1 := by
  induction calls with
  | nil =>
    intro T0 T h0 hr
    have e : T0 = T := Option.some.inj hr
    rw [← e]; exact h0
  | cons call rest ih =>
    intro T0 T h0 hr
    unfold run at hr
    cases hs : step c T0 call with
    | none => rw [hs] at hr; exact absurd hr (by simp)
    | some o =>
      rw [hs] at hr
      exact ih o.mappings T (anonymous_allocated_step c T0 call o h0 hs) hr

/-- The trace of a call of `__syscall_munmap` that returns 0 after having found `m`: whether
`emscripten_builtin_free(map)` is called depends on the flags read at line 90. -/
theorem munmap_zero_trace (c : Consts) (env : Env) (pre : List map) (m : map)
    (post : List map) (A L : Int) (hE : 0 < c.EINVAL)
    (hpre : ∀ r ∈ pre, r.addr ≠ A) (hm : m.addr = A)
    (hret : (__syscall_munmap c env (pre ++ m :: post) A L).ret = 0) :
    (__syscall_munmap c env (pre ++ m :: post) A L).trace =
      [Event.LOCK, Event.UNLOCK] ++
      (if bitand m.flags c.MAP_ANONYMOUS = 0 then
        [Event._munmap_js A L m.prot m.flags m.fd m.offset] else []) ++
      (if m.allocated ≠ 0 then [Event.emscripten_builtin_free m.addr] else []) ++
      (if bitand (flags_at_line_90 c env m) c.MAP_ANONYMOUS = 0 then
        [Event.emscripten_builtin_free m.self] else []) := by
  rw [munmap_split c env pre m post A L hpre hm] at hret ⊢
  split_ifs at hret with h1 h2
  · exact absurd hret (by show -c.EINVAL ≠ 0; omega)
  · exact absurd hret (by show -c.EINVAL ≠ 0; omega)
  · rw [if_neg h1, if_neg h2]
    have hret1 : (munmap_release c env m A L).1 = 0 := hret
    rw [munmap_release_fst] at hret1
    show [Event.LOCK, Event.UNLOCK] ++ (munmap_release c env m A L).2 = _
    unfold munmap_release
    dsimp only
    split_ifs at hret1 with h3
    · exact absurd hret1 h3.2
    · rw [if_neg h3]
      simp only [List.append_assoc]

/-- The flags read at line 90 are the stored ones for a file-backed record, and what the
environment left in the freed block for an anonymous record whose `allocated` is set. -/
theorem flags_at_line_90_eq (c : Consts) (env : Env) (m : map) :
    (bitand m.flags c.MAP_ANONYMOUS = 0 → flags_at_line_90 c env m = m.flags) ∧
    (bitand m.flags c.MAP_ANONYMOUS ≠ 0 → m.allocated ≠ 0 →
      flags_at_line_90 c env m = env.flags_after_free m.self m.flags) := by
  unfold flags_at_line_90
  constructor
  · intro hf
    rw [if_neg (fun h => h.2 hf)]
  · intro ha hal
    rw [if_pos ⟨hal, ha⟩]

/-- C16 fails on the code for an anonymous mapping, because line 90 reads `map->flags` from
the block that line 87 has freed.  The list `[anonAt65536 4096]` is what one anonymous call
of `__syscall_mmap2` leaves: data at 65536, record at 69632 inside the same block.
(1) When the freed block is written over so that 0 is read where the flags lay,
`__syscall_munmap(65536, 4096)` returns 0 and calls `emscripten_builtin_free` twice, the
second time on the record, which is anonymous and lies in the block already freed.
(2) When the freed block is left as it was, the same call frees the data address only, as
the claim says.  (3) For the file-backed record at 131072 the calls are those the claim
says, whatever freed memory holds. -/
theorem C16_flags_read_after_free :
    run wasm32 [] [Call.mmap2 (envOf 65536 0 0 0 0 0) 0 4096 3 0x22 (-1) 0] =
      some [anonAt65536 4096] ∧
    (anonAt65536 4096).self = 69632 ∧
    __syscall_munmap wasm32 (envOverwritten 0) [anonAt65536 4096] 65536 4096 =
      ⟨0, [], [Event.LOCK, Event.UNLOCK, Event.emscripten_builtin_free 65536,
        Event.emscripten_builtin_free 69632]⟩ ∧
    __syscall_munmap wasm32 (envOf 0 0 0 0 0 0) [anonAt65536 4096] 65536 4096 =
      ⟨0, [], [Event.LOCK, Event.UNLOCK, Event.emscripten_builtin_free 65536]⟩ ∧
    __syscall_munmap wasm32 (envOverwritten 0x20) [fileAt131072] 131072 8192 =
      ⟨0, [], [Event.LOCK, Event.UNLOCK, Event._munmap_js 131072 8192 1 2 3 0,
        Event.emscripten_builtin_free 131072, Event.emscripten_builtin_free 196608]⟩ := by
  refine ⟨?_, ?_, ?_, ?_, ?_⟩ <;> decide

/-! ## C18: handles of `emscripten::ProxyingQueue` -/

/-- What the move assignment does to two objects that are alive. -/
theorem move_assign_eq (s : QState) (x y : Nat) (q oq : Int)
    (hx : s.queue x = some q) (hy : s.queue y = some oq) :
    ProxyingQueue.move_assign s x y =
      some { queue := setQueue (setQueue s.queue x (some oq)) y (some 0),
             trace := destroyIfSet s.trace q } := by
  unfold ProxyingQueue.move_assign
  rw [hx, hy]

theorem holders_setQueue_of_not_mem (f : Nat → Option Int) (x : Nat) (v : Option Int)
    (h : Int) (live : List Nat) (hx : x ∉ live) :
    holders (setQueue f x v) h live = holders f h live := by
  induction live with
  | nil => rfl
  | cons y rest ih =>
    have hy : y ≠ x := fun e => hx (e ▸ List.mem_cons_self _ _)
    have hr : x ∉ rest := fun hm => hx (List.mem_cons_of_mem _ hm)
    have e : setQueue f x v y = f y := by
      unfold setQueue
      rw [if_neg hy]
    show (if setQueue f x v y = some h then 1 else 0) + holders (setQueue f x v) h rest =
      (if f y = some h then 1 else 0) + holders f h rest
    rw [e, ih hr]

theorem holders_setQueue_of_mem (f : Nat → Option Int) (x : Nat) (v : Option Int)
    (h : Int) (live : List Nat) (hn : live.Nodup) (hx : x ∈ live) :
    holders (setQueue f x v) h live + (if f x = some h then 1 else 0) =
      holders f h live + (if v = some h then 1 else 0) := by
  induction live with
  | nil => exact absurd hx (List.not_mem_nil x)
  | cons y rest ih =>
    have hnr := List.nodup_cons.mp hn
    show (if setQueue f x v y = some h then 1 else 0) + holders (setQueue f x v) h rest +
        (if f x = some h then 1 else 0) =
      (if f y = some h then 1 else 0) + holders f h rest + (if v = some h then 1 else 0)
    by_cases e : y = x
    · subst e
      have e1 : setQueue f y v y = v := by
        unfold setQueue
        rw [if_pos rfl]
      rw [e1, holders_setQueue_of_not_mem f y v h rest hnr.1]
      generalize (if v = some h then 1 else 0) = a
      generalize (if f y = some h then 1 else 0) = b
      omega
    · have hxr : x ∈ rest := (List.mem_cons.mp hx).resolve_left (fun h1 => e h1.symm)
      have e1 : setQueue f x v y = f y := by
        unfold setQueue
        rw [if_neg e]
      have h2 := ih hnr.2 hxr
      rw [e1]
      generalize (if v = some h then 1 else 0) = a at h2 ⊢
      generalize (if f x = some h then 1 else 0) = b at h2 ⊢
      generalize (if f y = some h then 1 else 0) = d
      omega

theorem count_create_destroyIfSet (tr : List QEvent) (q h : Int) :
    (destroyIfSet tr q).count (QEvent.em_proxying_queue_create h) =
      tr.count (QEvent.em_proxying_queue_create h) := by
  unfold destroyIfSet
  split_ifs
  · rw [List.count_append]
    simp [List.count_cons]
  · rfl

theorem count_destroy_destroyIfSet (tr : List QEvent) (q h : Int) :
    (destroyIfSet tr q).count (QEvent.em_proxying_queue_destroy h) =
      tr.count (QEvent.em_proxying_queue_destroy h) +
        (if q ≠ 0 ∧ q = h then 1 else 0) := by
  unfold destroyIfSet
  by_cases hq : q ≠ 0
  · rw [if_pos hq, List.count_append]
    by_cases e : q = h
    · rw [if_pos ⟨hq, e⟩]
      simp [List.count_cons, e]
    · rw [if_neg (fun hc => e hc.2)]
      simp [List.count_cons, e]
  · rw [if_neg hq, if_neg (fun hc => hq hc.1)]
    rfl

/-- Assigning to the member of an object of `live` keeps all objects alive in `live`. -/
theorem alive_setQueue (f : Nat → Option Int) (x : Nat) (v : Option Int) (live : List Nat)
    (hl : x ∈ live) (ha : ∀ z, f z ≠ none → z ∈ live) :
    ∀ z, setQueue f x v z ≠ none → z ∈ live := by
  intro z hz
  by_cases e : z = x
  · rw [e]
    exact hl
  · unfold setQueue at hz
    rw [if_neg e] at hz
    exact ha z hz

/-- The list `live` can be taken to hold any object that is not alive. -/
theorem QBalance_extend (live : List Nat) (s : QState) (x : Nat) (hb : QBalance live s)
    (hx : s.queue x = none) : ∃ live1, x ∈ live1 ∧ QBalance live1 s := by
  by_cases hl : x ∈ live
  · exact ⟨live, hl, hb⟩
  · obtain ⟨hn, ha, hc, hz⟩ := hb
    refine ⟨x :: live, List.mem_cons_self _ _, List.nodup_cons.mpr ⟨hl, hn⟩,
      fun z hzq => List.mem_cons_of_mem _ (ha z hzq), ?_, hz⟩
    intro h hh
    show (if s.queue x = some h then 1 else 0) + holders s.queue h live + _ = _
    rw [hx, if_neg (by simp)]
    rw [Nat.zero_add]
    exact hc h hh

/-- The balance survives the default constructor. -/
theorem QBalance_construct (live : List Nat) (s : QState) (x : Nat) (created : Int)
    (hb : QBalance live s) (hx : s.queue x = none) (hl : x ∈ live) :
    QBalance live ⟨setQueue s.queue x (some created),
      s.trace ++ [QEvent.em_proxying_queue_create created]⟩ := by
  obtain ⟨hn, ha, hc, hz⟩ := hb
  refine ⟨hn, alive_setQueue s.queue x _ live hl ha, ?_, ?_⟩
  · intro h hh
    have h1 := holders_setQueue_of_mem s.queue x (some created) h live hn hl
    rw [hx, if_neg (by simp)] at h1
    have h2 := hc h hh
    show holders (setQueue s.queue x (some created)) h live +
        (s.trace ++ [QEvent.em_proxying_queue_create created]).count
          (QEvent.em_proxying_queue_destroy h) =
      (s.trace ++ [QEvent.em_proxying_queue_create created]).count
          (QEvent.em_proxying_queue_create h)
    rw [List.count_append, List.count_append]
    by_cases e : created = h
    · rw [if_pos (by rw [e])] at h1
      have e1 : List.count (QEvent.em_proxying_queue_create h)
          [QEvent.em_proxying_queue_create created] = 1 := by simp [List.count_cons, e]
      have e2 : List.count (QEvent.em_proxying_queue_destroy h)
          [QEvent.em_proxying_queue_create created] = 0 := by simp [List.count_cons]
      rw [e1, e2]
      omega
    · rw [if_neg (fun hc1 => e (Option.some.inj hc1))] at h1
      have e1 : List.count (QEvent.em_proxying_queue_create h)
          [QEvent.em_proxying_queue_create created] = 0 := by simp [List.count_cons, e]
      have e2 : List.count (QEvent.em_proxying_queue_destroy h)
          [QEvent.em_proxying_queue_create created] = 0 := by simp [List.count_cons]
      rw [e1, e2]
      omega
  · show (s.trace ++ [QEvent.em_proxying_queue_create created]).count
        (QEvent.em_proxying_queue_destroy 0) = 0
    rw [List.count_append, hz]
    simp [List.count_cons]

/-- The balance survives the move assignment `x = std::move(y)` of two objects that are
alive, `x` holding `q` and `y` holding `oq`; they may be the same object. -/
theorem QBalance_move_assign (live : List Nat) (s : QState) (x y : Nat) (q oq : Int)
    (hb : QBalance live s) (hx : s.queue x = some q) (hy : s.queue y = some oq) :
    QBalance live ⟨setQueue (setQueue s.queue x (some oq)) y (some 0),
      destroyIfSet s.trace q⟩ := by
  obtain ⟨hn, ha, hc, hz⟩ := hb
  have hxl : x ∈ live := ha x (by rw [hx]; simp)
  have hyl : y ∈ live := ha y (by rw [hy]; simp)
  have hf1y : setQueue s.queue x (some oq) y = some oq := by
    unfold setQueue
    by_cases e : y = x
    · rw [if_pos e]
    · rw [if_neg e]
      exact hy
  refine ⟨hn, alive_setQueue _ y _ live hyl (alive_setQueue s.queue x _ live hxl ha),
    ?_, ?_⟩
  · intro h hh
    have h1 := holders_setQueue_of_mem s.queue x (some oq) h live hn hxl
    have h2 := holders_setQueue_of_mem (setQueue s.queue x (some oq)) y (some 0) h live
      hn hyl
    rw [hf1y, if_neg (fun hc1 => hh (Option.some.inj hc1).symm)] at h2
    rw [hx] at h1
    have h3 := hc h hh
    show holders (setQueue (setQueue s.queue x (some oq)) y (some 0)) h live +
        (destroyIfSet s.trace q).count (QEvent.em_proxying_queue_destroy h) =
      (destroyIfSet s.trace q).count (QEvent.em_proxying_queue_create h)
    rw [count_create_destroyIfSet, count_destroy_destroyIfSet]
    by_cases e : q = h
    · have hq0 : q ≠ 0 := by rw [e]; exact hh
      rw [if_pos ⟨hq0, e⟩]
      rw [if_pos (by rw [e])] at h1
      generalize (if some oq = some h then 1 else 0) = a at h1 h2
      omega
    · rw [if_neg (fun hc1 => e hc1.2)]
      rw [if_neg (fun hc1 => e (Option.some.inj hc1))] at h1
      generalize (if some oq = some h then 1 else 0) = a at h1 h2
      omega
  · show (destroyIfSet s.trace q).count (QEvent.em_proxying_queue_destroy 0) = 0
    rw [count_destroy_destroyIfSet, hz, if_neg (fun hc1 => hc1.1 hc1.2)]

/-- The balance survives the destructor. -/
theorem QBalance_destruct (live : List Nat) (s : QState) (x : Nat) (q : Int)
    (hb : QBalance live s) (hx : s.queue x = some q) :
    QBalance live ⟨setQueue s.queue x none, destroyIfSet s.trace q⟩ := by
  obtain ⟨hn, ha, hc, hz⟩ := hb
  have hxl : x ∈ live := ha x (by rw [hx]; simp)
  refine ⟨hn, alive_setQueue s.queue x _ live hxl ha, ?_, ?_⟩
  · intro h hh
    have h1 := holders_setQueue_of_mem s.queue x none h live hn hxl
    have hnone : (if (none : Option Int) = some h then 1 else 0) = 0 := if_neg (by simp)
    rw [hx, hnone] at h1
    have h3 := hc h hh
    show holders (setQueue s.queue x none) h live +
        (destroyIfSet s.trace q).count (QEvent.em_proxying_queue_destroy h) =
      (destroyIfSet s.trace q).count (QEvent.em_proxying_queue_create h)
    rw [count_create_destroyIfSet, count_destroy_destroyIfSet]
    by_cases e : q = h
    · have hq0 : q ≠ 0 := by rw [e]; exact hh
      rw [if_pos ⟨hq0, e⟩]
      rw [if_pos (by rw [e])] at h1
      omega
    · rw [if_neg (fun hc1 => e hc1.2)]
      rw [if_neg (fun hc1 => e (Option.some.inj hc1))] at h1
      omega
  · show (destroyIfSet s.trace q).count (QEvent.em_proxying_queue_destroy 0) = 0
    rw [count_destroy_destroyIfSet, hz, if_neg (fun hc1 => hc1.1 hc1.2)]

/-- The balance survives the start of the life of an object of `live` that holds the null
pointer. -/
theorem QBalance_addNull (live : List Nat) (s : QState) (x : Nat)
    (hb : QBalance live s) (hx : s.queue x = none) (hl : x ∈ live) :
    QBalance live ⟨setQueue s.queue x (some 0), s.trace⟩ := by
  obtain ⟨hn, ha, hc, hz⟩ := hb
  refine ⟨hn, alive_setQueue s.queue x _ live hl ha, ?_, hz⟩
  intro h hh
  have h1 := holders_setQueue_of_mem s.queue x (some 0) h live hn hl
  have hnone : (if (none : Option Int) = some h then 1 else 0) = 0 := if_neg (by simp)
  rw [hx, hnone, if_neg (fun hc1 => hh (Option.some.inj hc1).symm)] at h1
  have h3 := hc h hh
  show holders (setQueue s.queue x (some 0)) h live +
      s.trace.count (QEvent.em_proxying_queue_destroy h) =
    s.trace.count (QEvent.em_proxying_queue_create h)
  omega

/-- The balance survives every use of a special member function. -/
theorem QBalance_run (live : List Nat) (s s1 : QState) (op : QOp)
    (hb : QBalance live s) (h : op.run s = some s1) : ∃ live1, QBalance live1 s1 := by
  cases op with
  | construct x created =>
    have h0 : ProxyingQueue.construct s x created = some s1 := h
    unfold ProxyingQueue.construct at h0
    cases hx : s.queue x with
    | some q => rw [hx] at h0; exact absurd h0 (by simp)
    | none =>
      rw [hx] at h0
      have e := Option.some.inj h0
      subst e
      obtain ⟨live1, hl, hb1⟩ := QBalance_extend live s x hb hx
      exact ⟨live1, QBalance_construct live1 s x created hb1 hx hl⟩
  | move_construct x y =>
    have h0 : ProxyingQueue.move_construct s x y = some s1 := h
    unfold ProxyingQueue.move_construct at h0
    cases hx : s.queue x with
    | some q => rw [hx] at h0; exact absurd h0 (by simp)
    | none =>
      cases hy : s.queue y with
      | none => rw [hx, hy] at h0; exact absurd h0 (by simp)
      | some oq =>
        rw [hx, hy] at h0
        obtain ⟨live1, hl, hb1⟩ := QBalance_extend live s x hb hx
        have hb0 := QBalance_addNull live1 s x hb1 hx hl
        have hyx : y ≠ x := by
          intro e
          rw [e, hx] at hy
          exact absurd hy (by simp)
        have hx0 : setQueue s.queue x (some 0) x = some 0 := by
          unfold setQueue
          rw [if_pos rfl]
        have hy0 : setQueue s.queue x (some 0) y = some oq := by
          unfold setQueue
          rw [if_neg hyx]
          exact hy
        rw [move_assign_eq ⟨setQueue s.queue x (some 0), s.trace⟩ x y 0 oq hx0 hy0] at h0
        have e := Option.some.inj h0
        subst e
        exact ⟨live1, QBalance_move_assign live1 _ x y 0 oq hb0 hx0 hy0⟩
  | move_assign x y =>
    have h0 : ProxyingQueue.move_assign s x y = some s1 := h
    cases hx : s.queue x with
    | none =>
      unfold ProxyingQueue.move_assign at h0
      rw [hx] at h0
      exact absurd h0 (by simp)
    | some q =>
      cases hy : s.queue y with
      | none =>
        unfold ProxyingQueue.move_assign at h0
        rw [hx, hy] at h0
        exact absurd h0 (by simp)
      | some oq =>
        rw [move_assign_eq s x y q oq hx hy] at h0
        have e := Option.some.inj h0
        subst e
        exact ⟨live, QBalance_move_assign live s x y q oq hb hx hy⟩
  | destruct x =>
    have h0 : ProxyingQueue.destruct s x = some s1 := h
    unfold ProxyingQueue.destruct at h0
    cases hx : s.queue x with
    | none => rw [hx] at h0; exact absurd h0 (by simp)
    | some q =>
      rw [hx] at h0
      have e := Option.some.inj h0
      subst e
      exact ⟨live, QBalance_destruct live s x q hb hx⟩

/-- Every use of a special member function adds at most one call at the end of the
trace. -/
theorem run_trace_step (s s1 : QState) (op : QOp) (h : op.run s = some s1) :
    s1.trace = s.trace ∨ ∃ e, s1.trace = s.trace ++ [e] := by
  have hd : ∀ tr q, destroyIfSet tr q = tr ∨ ∃ e, destroyIfSet tr q = tr ++ [e] := by
    intro tr q
    unfold destroyIfSet
    split_ifs
    · exact Or.inr ⟨_, rfl⟩
    · exact Or.inl rfl
  cases op with
  | construct x created =>
    have h0 : ProxyingQueue.construct s x created = some s1 := h
    unfold ProxyingQueue.construct at h0
    cases hx : s.queue x with
    | some q => rw [hx] at h0; exact absurd h0 (by simp)
    | none =>
      rw [hx] at h0
      have e := Option.some.inj h0
      subst e
      exact Or.inr ⟨_, rfl⟩
  | move_construct x y =>
    have h0 : ProxyingQueue.move_construct s x y = some s1 := h
    unfold ProxyingQueue.move_construct at h0
    cases hx : s.queue x with
    | some q => rw [hx] at h0; exact absurd h0 (by simp)
    | none =>
      cases hy : s.queue y with
      | none => rw [hx, hy] at h0; exact absurd h0 (by simp)
      | some oq =>
        rw [hx, hy] at h0
        unfold ProxyingQueue.move_assign at h0
        dsimp only at h0
        split at h0
        · have e := Option.some.inj h0
          subst e
          exact hd _ _
        · exact absurd h0 (by simp)
  | move_assign x y =>
    have h0 : ProxyingQueue.move_assign s x y = some s1 := h
    unfold ProxyingQueue.move_assign at h0
    dsimp only at h0
    split at h0
    · have e := Option.some.inj h0
      subst e
      exact hd _ _
    · exact absurd h0 (by simp)
  | destruct x =>
    have h0 : ProxyingQueue.destruct s x = some s1 := h
    unfold ProxyingQueue.destruct at h0
    cases hx : s.queue x with
    | none => rw [hx] at h0; exact absurd h0 (by simp)
    | some q =>
      rw [hx] at h0
      have e := Option.some.inj h0
      subst e
      exact hd _ _

/-- In a state that is in balance no handle has been destroyed more often than created. -/
theorem balanced_of_QBalance (live : List Nat) (s : QState) (hb : QBalance live s) :
    ∀ h, s.trace.count (QEvent.em_proxying_queue_destroy h) ≤
      s.trace.count (QEvent.em_proxying_queue_create h) := by
  intro h
  by_cases hh : h = 0
  · rw [hh, hb.2.2.2]
    exact Nat.zero_le _
  · have h1 := hb.2.2.1 h hh
    omega

/-- Along every sequence of uses the balance is kept, and at every moment (for every
initial part of the trace) no handle has been destroyed more often than created. -/
theorem runOps_balanced (ops : List QOp) :
    ∀ (s s1 : QState) (live : List Nat), QBalance live s →
      (∀ p, p <+: s.trace → ∀ h, p.count (QEvent.em_proxying_queue_destroy h) ≤
        p.count (QEvent.em_proxying_queue_create h)) →
      runOps s ops = some s1 →
      (∃ live1, QBalance live1 s1) ∧
      (∀ p, p <+: s1.trace → ∀ h, p.count (QEvent.em_proxying_queue_destroy h) ≤
        p.count (QEvent.em_proxying_queue_create h)) := by
  induction ops with
  | nil =>
    intro s s1 live hb hp h
    have e : s = s1 := Option.some.inj h
    rw [← e]
    exact ⟨⟨live, hb⟩, hp⟩
  | cons op rest ih =>
    intro s s1 live hb hp h
    unfold runOps at h
    cases hs : op.run s with
    | none => rw [hs] at h; exact absurd h (by simp)
    | some s2 =>
      rw [hs] at h
      obtain ⟨live2, hb2⟩ := QBalance_run live s s2 op hb hs
      have hp2 : ∀ p, p <+: s2.trace → ∀ h, p.count (QEvent.em_proxying_queue_destroy h) ≤
          p.count (QEvent.em_proxying_queue_create h) := by
        intro p hpp
        rcases run_trace_step s s2 op hs with e | ⟨ev, e⟩
        · rw [e] at hpp
          exact hp p hpp
        · rw [e] at hpp
          rcases List.prefix_concat_iff.mp hpp with e1 | hpre
          · rw [e1, ← e]
            exact balanced_of_QBalance live2 s2 hb2
          · exact hp p hpre
      exact ih s2 s1 live2 hb2 hp2 h

/-- The balance holds when no object is alive and no call has been made. -/
theorem QBalance_start : QBalance [] QState.start :=
  ⟨List.nodup_nil, fun _ hx => absurd rfl hx, fun _ _ => rfl, rfl⟩

/-- C18.  (1) For every sequence of default constructions, move constructions, move
assignments (of an object to itself too) and destructions of `ProxyingQueue` objects,
started with no object alive, and whatever `em_proxying_queue_create` returns: at every
moment of the run (for every initial part `p` of its trace) every handle has been passed to
`em_proxying_queue_destroy` at most as many times as `em_proxying_queue_create` has
returned it.  So every call of `em_proxying_queue_destroy` has a creation of its own before
it, and no creation has its handle destroyed twice, also when a handle that was destroyed
is returned again later.  The null pointer is never passed to
`em_proxying_queue_destroy`.  (2) A move assignment `a = std::move(b)` with `a` and `b`
different objects holding `ha` and `hb` destroys `ha` when it is not null and makes no
other call, leaves `a` holding `hb` and `b` holding the null pointer, and leaves every
other object as it was. -/
theorem C18_handles_destroyed_once (ops : List QOp) (tr : List QEvent) (s0 : QState)
    (a b : Nat) (ha hb : Int) :
    ((runOps QState.start ops).map QState.trace = some tr →
      (∀ p, p <+: tr → ∀ h, p.count (QEvent.em_proxying_queue_destroy h) ≤
        p.count (QEvent.em_proxying_queue_create h)) ∧
      tr.count (QEvent.em_proxying_queue_destroy 0) = 0) ∧
    (a ≠ b → s0.queue a = some ha → s0.queue b = some hb →
      ∃ s1, ProxyingQueue.move_assign s0 a b = some s1 ∧
        s1.trace =
          s0.trace ++ (if ha ≠ 0 then [QEvent.em_proxying_queue_destroy ha] else []) ∧
        s1.queue a = some hb ∧ s1.queue b = some 0 ∧
        ∀ x, x ≠ a → x ≠ b → s1.queue x = s0.queue x) := by
  constructor
  · intro hrun
    cases hs : runOps QState.start ops with
    | none => rw [hs] at hrun; exact absurd hrun (by simp)
    | some s1 =>
      rw [hs] at hrun
      have e : s1.trace = tr := Option.some.inj hrun
      have hstart : ∀ p, p <+: QState.start.trace →
          ∀ h, p.count (QEvent.em_proxying_queue_destroy h) ≤
            p.count (QEvent.em_proxying_queue_create h) := by
        intro p hp h
        have e0 : p = [] := List.prefix_nil.mp hp
        rw [e0]
        exact Nat.le_refl _
      obtain ⟨⟨live1, hb1⟩, hp1⟩ :=
        runOps_balanced ops QState.start s1 [] QBalance_start hstart hs
      rw [← e]
      exact ⟨hp1, hb1.2.2.2⟩
  · intro hab hqa hqb
    refine ⟨_, move_assign_eq s0 a b ha hb hqa hqb, ?_, ?_, ?_, ?_⟩
    · show destroyIfSet s0.trace ha = _
      unfold destroyIfSet
      split_ifs
      · rfl
      · exact (List.append_nil _).symm
    · show setQueue (setQueue s0.queue a (some hb)) b (some 0) a = some hb
      unfold setQueue
      rw [if_neg hab, if_pos rfl]
    · show setQueue (setQueue s0.queue a (some hb)) b (some 0) b = some 0
      unfold setQueue
      rw [if_pos rfl]
    · intro x hxa hxb
      show setQueue (setQueue s0.queue a (some hb)) b (some 0) x = s0.queue x
      unfold setQueue
      rw [if_neg hxb, if_neg hxa]

/-- C18 at the sequence `ProxyingQueue q0; ProxyingQueue q1; q0 = std::move(q1);
q0 = std::move(q0); ProxyingQueue q2(std::move(q1));`, the three destructions, and then
`ProxyingQueue q0;` and its destruction again, with `em_proxying_queue_create` returning 7,
then 9, then 7 once more; and at the move assignment of object 1 to object 0 in
`twoQueues`. -/
theorem C18_handles_destroyed_once_witness :
    (runOps QState.start
        [QOp.construct 0 7, QOp.construct 1 9, QOp.move_assign 0 1, QOp.move_assign 0 0,
         QOp.move_construct 2 1, QOp.destruct 0, QOp.destruct 1, QOp.destruct 2,
         QOp.construct 0 7, QOp.destruct 0]).map QState.trace =
      some [QEvent.em_proxying_queue_create 7, QEvent.em_proxying_queue_create 9,
        QEvent.em_proxying_queue_destroy 7, QEvent.em_proxying_queue_destroy 9,
        QEvent.em_proxying_queue_create 7, QEvent.em_proxying_queue_destroy 7] ∧
    (∀ p, p <+: [QEvent.em_proxying_queue_create 7, QEvent.em_proxying_queue_create 9,
        QEvent.em_proxying_queue_destroy 7, QEvent.em_proxying_queue_destroy 9,
        QEvent.em_proxying_queue_create 7, QEvent.em_proxying_queue_destroy 7] →
      ∀ h, p.count (QEvent.em_proxying_queue_destroy h) ≤
        p.count (QEvent.em_proxying_queue_create h)) ∧
    ∃ s1, ProxyingQueue.move_assign twoQueues 0 1 = some s1 ∧
      s1.trace = twoQueues.trace ++
        (if (7 : Int) ≠ 0 then [QEvent.em_proxying_queue_destroy 7] else []) ∧
      s1.queue 0 = some 9 ∧ s1.queue 1 = some 0 ∧
      ∀ x, x ≠ 0 → x ≠ 1 → s1.queue x = twoQueues.queue x :=
  have h := C18_handles_destroyed_once
    [QOp.construct 0 7, QOp.construct 1 9, QOp.move_assign 0 1, QOp.move_assign 0 0,
     QOp.move_construct 2 1, QOp.destruct 0, QOp.destruct 1, QOp.destruct 2,
     QOp.construct 0 7, QOp.destruct 0]
    [QEvent.em_proxying_queue_create 7, QEvent.em_proxying_queue_create 9,
     QEvent.em_proxying_queue_destroy 7, QEvent.em_proxying_queue_destroy 9,
     QEvent.em_proxying_queue_create 7, QEvent.em_proxying_queue_destroy 7]
    twoQueues 0 1 7 9
  ⟨by decide, (h.1 (by decide)).1, h.2 (by decide) (by decide) (by decide)⟩

end EmscriptenMmap
